import Mathlib

/-!
# atest: device negotiation and harness orchestration

A shallow embedding of `src/alsa.c` (`alsa_device_open`) and `src/atest.c`
(`on_stdin`, the reactor callbacks and `main`), followed by theorems about them.

External collaborators (the ALSA library, libev, the test variants) are
represented by explicit environments: every value they return is a field of an
environment record, and every call the program makes on them is appended to a
trace of events.
-/

namespace Atest

/-! ## Part 1. `alsa_device_open` (src/alsa.c) -/

/-- Stream direction: `SND_PCM_STREAM_CAPTURE` or `SND_PCM_STREAM_PLAYBACK`. -/
inductive Dir
  | capture
  | playback
  deriving DecidableEq, Repr

/-- The ALSA calls of `alsa_device_open` whose return value is tested with `< 0`. -/
inductive Step
  | pcm_open
  | hw_params_malloc
  | hw_params_any
  | set_access
  | set_format
  | set_rate_near
  | set_channels
  | set_period_size_near
  | set_buffer_size_near
  | hw_params
  | sw_params_malloc
  | sw_params_current
  | set_avail_min
  | set_start_threshold
  | sw_params
  deriving DecidableEq, Repr

/-- The ALSA library as seen by one call of `alsa_device_open`: which calls
return a negative value, the values the nearest-match calls write back through
their in/out argument, and the value returned by `snd_pcm_link`. -/
structure Alsa where
  fails : Dir → Step → Bool
  rate_near : Dir → Nat → Nat
  period_near : Dir → Nat → Nat
  buffer_near : Dir → Nat → Nat
  link_ret : Int

/-- Modelled from the spec: `struct alsa_config` is declared in `alsa.h`, which
is not among the sources. The fields are the ones `alsa.c` and `atest.c` access;
the numeric fields are 32-bit unsigned (`u32` in the spec, printed with `%u`),
the link flag is a boolean, `device` and `priority` are character arrays holding
a NUL-terminated string (here: the bytes of the array up to its end, read as a
C string by `cstr`). -/
structure alsa_config where
  device : List Nat
  rate : Nat
  channels : Nat
  period : Nat
  buffer_period_count : Nat
  priority : List Nat
  linking_capture_playback : Bool
  deriving DecidableEq, Repr

/-- Observable actions of `alsa_device_open` on the ALSA library. Streams and
parameter descriptors are identified by the direction block that created them. -/
inductive Ev
  | pcm_open (d : Dir)
  | pcm_close (d : Dir)
  | hw_malloc (d : Dir)
  | hw_free (d : Dir)
  | sw_malloc (d : Dir)
  | sw_free (d : Dir)
  | period_near (d : Dir) (req ret : Nat)
  | warn_period (d : Dir)
  | set_avail_min (d : Dir) (v : Nat)
  | set_start_threshold (d : Dir) (v : Nat)
  | sw_commit (d : Dir)
  | link
  | err_link
  deriving DecidableEq, Repr

/-- Width of `snd_pcm_uframes_t` (`unsigned long`, LP64). -/
def ULONG_BITS : Nat := 64

/-- Conversion of a 32-bit unsigned value to `int` (`int period_count = config->buffer_period_count`). -/
def to_int (n : Nat) : Int :=
  if n % 2 ^ 32 < 2 ^ 31 then ((n % 2 ^ 32 : Nat) : Int) else ((n % 2 ^ 32 : Nat) : Int) - 2 ^ 32

/-- Conversion of an `int` to `unsigned long` in a mixed multiplication. -/
def to_ulong (i : Int) : Nat := (i % 2 ^ ULONG_BITS).toNat

/-- Result of an `int` operation, reduced to the 32 bits of an `int` in two's
complement: a result that fits is unchanged, `INT_MIN - 1` is `INT_MAX`. -/
def wrap_int (i : Int) : Int := to_int (i % 2 ^ 32).toNat

/-- The local variables of `alsa_device_open`, the record behind `config`, the
two output cells and the trace of library actions so far. -/
structure St where
  config : alsa_config
  capture_handle : Option Dir
  playback_handle : Option Dir
  hw_params : Option Dir
  sw_params : Option Dir
  period_size : Nat
  buffer_size : Nat
  trace : List Ev
  deriving DecidableEq, Repr

/-- Append an action to the trace. -/
def St.log (s : St) (e : Ev) : St := { s with trace := s.trace ++ [e] }

/-- Store into `*capture_handle` or `*playback_handle`. -/
def St.set_handle (s : St) (d : Dir) (h : Option Dir) : St :=
  match d with
  | .capture => { s with capture_handle := h }
  | .playback => { s with playback_handle := h }

/-- Read `*capture_handle` or `*playback_handle`. -/
def St.handle (s : St) (d : Dir) : Option Dir :=
  match d with
  | .capture => s.capture_handle
  | .playback => s.playback_handle

/-- The call `snd_pcm_hw_params_free(hw_params)` on the current content of the variable. -/
def St.free_hw (s : St) : St :=
  match s.hw_params with
  | some x => s.log (.hw_free x)
  | none => s

/-- The call `snd_pcm_sw_params_free(sw_params)` on the current content of the variable. -/
def St.free_sw (s : St) : St :=
  match s.sw_params with
  | some x => s.log (.sw_free x)
  | none => s

/-- Sequential composition of statements: each runs on the state left by the
previous one; `Except.error s` is `goto open_failed` taken in state `s` and
skips the rest, `Except.ok s` falls through to the next statement. -/
def run : List (St → Except St St) → St → Except St St
  | [], s => .ok s
  | f :: fs, s =>
    match f s with
    | .ok s1 => run fs s1
    | .error s1 => .error s1

/-- Lines 31-35 / 119-123: `snd_pcm_open`; on failure the output cell is reset to NULL. -/
def pcm_open_step (env : Alsa) (d : Dir) (s : St) : Except St St :=
  if env.fails d .pcm_open then .error (s.set_handle d none)
  else .ok ((s.set_handle d (some d)).log (.pcm_open d))

/-- Lines 37-40 / 125-128: `snd_pcm_hw_params_malloc (&hw_params)`. -/
def hw_params_malloc_step (env : Alsa) (d : Dir) (s : St) : Except St St :=
  if env.fails d .hw_params_malloc then .error s
  else .ok (St.log { s with hw_params := some d } (.hw_malloc d))

/-- A tested call with no effect on the variables of the function:
`snd_pcm_hw_params_any`, `..._set_access`, `..._set_format`, `..._set_channels`,
`snd_pcm_hw_params`, `snd_pcm_sw_params_current`. -/
def check (env : Alsa) (d : Dir) (k : Step) (s : St) : Except St St :=
  if env.fails d k then .error s else .ok s

/-- Lines 57-60 / 145-148: `snd_pcm_hw_params_set_rate_near (.., &config->rate, 0)`. -/
def set_rate_near_step (env : Alsa) (d : Dir) (s : St) : Except St St :=
  if env.fails d .set_rate_near then .error s
  else .ok { s with config := { s.config with rate := env.rate_near d s.config.rate } }

/-- Lines 67-71 / 155-160: `snd_pcm_hw_params_set_period_size_near (.., &period_size, &dir)`. -/
def set_period_size_near_step (env : Alsa) (d : Dir) (s : St) : Except St St :=
  if env.fails d .set_period_size_near then .error s
  else .ok (St.log { s with period_size := env.period_near d s.period_size }
    (.period_near d s.period_size (env.period_near d s.period_size)))

/-- Lines 72-75 / 161-164: `if (period_size != config->period) { warn(..); config->period = period_size; }`;
the assignment narrows `snd_pcm_uframes_t` to the 32-bit field. -/
def period_check (d : Dir) (s : St) : Except St St :=
  if s.period_size ≠ s.config.period then
    .ok (St.log { s with config := { s.config with period := s.period_size % 2 ^ 32 } } (.warn_period d))
  else .ok s

/-- Line 76 / 171: `buffer_size = period_size * period_count;` in `unsigned long` arithmetic. -/
def compute_buffer_size (period_count : Int) (s : St) : Except St St :=
  .ok { s with buffer_size := (s.period_size * to_ulong period_count) % 2 ^ ULONG_BITS }

/-- Lines 78-81 / 173-176: `snd_pcm_hw_params_set_buffer_size_near (.., &buffer_size)`. -/
def set_buffer_size_near_step (env : Alsa) (d : Dir) (s : St) : Except St St :=
  if env.fails d .set_buffer_size_near then .error s
  else .ok { s with buffer_size := env.buffer_near d s.buffer_size }

/-- Lines 88-91 / 187-190: `snd_pcm_sw_params_malloc (&sw_params)`. -/
def sw_params_malloc_step (env : Alsa) (d : Dir) (s : St) : Except St St :=
  if env.fails d .sw_params_malloc then .error s
  else .ok (St.log { s with sw_params := some d } (.sw_malloc d))

/-- Lines 96-99 / 195-198: `snd_pcm_sw_params_set_avail_min (.., sw_params, period_size)`. -/
def set_avail_min_step (env : Alsa) (d : Dir) (s : St) : Except St St :=
  if env.fails d .set_avail_min then .error s
  else .ok (s.log (.set_avail_min d s.period_size))

/-- Lines 199-202 (playback block only):
`snd_pcm_sw_params_set_start_threshold (.., sw_params, (period_count -1) * period_size)`.
The subtraction is done in `int` (32 bits, wrapping), its result is converted
to `unsigned long` and the product is taken in `unsigned long`. -/
def set_start_threshold_step (env : Alsa) (period_count : Int) (d : Dir) (s : St) : Except St St :=
  if env.fails d .set_start_threshold then .error s
  else .ok (s.log (.set_start_threshold d
    ((to_ulong (wrap_int (period_count - 1)) * s.period_size) % 2 ^ ULONG_BITS)))

/-- Lines 106-109 / 203-206: `snd_pcm_sw_params`, the commit of the software parameters. -/
def sw_params_step (env : Alsa) (d : Dir) (s : St) : Except St St :=
  if env.fails d .sw_params then .error s
  else .ok (s.log (.sw_commit d))

/-- Lines 111-114 / 207-210: both descriptors are freed and the variables reset to NULL. -/
def release (s : St) : Except St St :=
  .ok { s.free_hw.free_sw with hw_params := none, sw_params := none }

/-- The body of `if (capture_handle) { ... }`, lines 28-116, statement by statement. -/
def capture_block (env : Alsa) (period_count : Int) : List (St → Except St St) :=
  [ pcm_open_step env .capture,
    hw_params_malloc_step env .capture,
    check env .capture .hw_params_any,
    check env .capture .set_access,
    check env .capture .set_format,
    set_rate_near_step env .capture,
    check env .capture .set_channels,
    set_period_size_near_step env .capture,
    period_check .capture,
    compute_buffer_size period_count,
    set_buffer_size_near_step env .capture,
    check env .capture .hw_params,
    sw_params_malloc_step env .capture,
    check env .capture .sw_params_current,
    set_avail_min_step env .capture,
    sw_params_step env .capture,
    release ]

/-- The body of `if (playback_handle) { ... }`, lines 118-211, statement by statement. -/
def playback_block (env : Alsa) (period_count : Int) : List (St → Except St St) :=
  [ pcm_open_step env .playback,
    hw_params_malloc_step env .playback,
    check env .playback .hw_params_any,
    check env .playback .set_access,
    check env .playback .set_format,
    set_rate_near_step env .playback,
    check env .playback .set_channels,
    set_period_size_near_step env .playback,
    period_check .playback,
    compute_buffer_size period_count,
    set_buffer_size_near_step env .playback,
    check env .playback .hw_params,
    sw_params_malloc_step env .playback,
    check env .playback .sw_params_current,
    set_avail_min_step env .playback,
    set_start_threshold_step env period_count .playback,
    sw_params_step env .playback,
    release ]

/-- What `alsa_device_open` leaves behind: the return value, the configuration
record, the two output cells and the trace. -/
structure open_result where
  ret : Int
  config : alsa_config
  capture_handle : Option Dir
  playback_handle : Option Dir
  trace : List Ev
  deriving DecidableEq, Repr

/-- The guarded close at `open_failed:`: `if (h && *h) { snd_pcm_close(*h); *h = NULL; }`,
where `want` says whether the pointer `h` is non-NULL. -/
def St.close (s : St) (want : Bool) (d : Dir) : St :=
  if want then
    match s.handle d with
    | some h => (s.log (.pcm_close h)).set_handle d none
    | none => s
  else s

/-- The label `open_failed:` (lines 223-234). `wc`/`wp` say whether the
pointers `capture_handle`/`playback_handle` are non-NULL. -/
def open_failed (wc wp : Bool) (s : St) : open_result :=
  let s := s.free_hw
  let s := s.free_sw
  let s := s.close wc .capture
  let s := s.close wp .playback
  { ret := -1, config := s.config, capture_handle := s.capture_handle,
    playback_handle := s.playback_handle, trace := s.trace }

/-- Lines 17-26: the declarations at the head of `alsa_device_open`; both
output cells are reset to NULL, `period_size`, `period_count` and `buffer_size`
are read from the configuration record. -/
def init_state (config : alsa_config) : St :=
  { config := config, capture_handle := none, playback_handle := none,
    hw_params := none, sw_params := none,
    period_size := config.period,
    buffer_size := (to_ulong (to_int config.buffer_period_count) * config.period) % 2 ^ ULONG_BITS,
    trace := [] }

/-- Lines 213-221: the optional `snd_pcm_link`, whose failure is only reported
with `err(..)`, and `return 0`. -/
def link_and_return (env : Alsa) (wc wp : Bool) (s : St) : open_result :=
  let s := if wc && wp && s.config.linking_capture_playback then
      (if env.link_ret ≠ 0 then (s.log .link).log .err_link else s.log .link)
    else s
  { ret := 0, config := s.config, capture_handle := s.capture_handle,
    playback_handle := s.playback_handle, trace := s.trace }

/-- The function `alsa_device_open`. `wc`/`wp` say whether the caller passed a
non-NULL `capture_handle`/`playback_handle` pointer. -/
def alsa_device_open (env : Alsa) (config : alsa_config) (wc wp : Bool) : open_result :=
  let period_count : Int := to_int config.buffer_period_count
  match (if wc then run (capture_block env period_count) (init_state config)
         else .ok (init_state config)) with
  | .error s => open_failed wc wp s
  | .ok s =>
    match (if wp then run (playback_block env period_count) s else .ok s) with
    | .error s => open_failed wc wp s
    | .ok s => link_and_return env wc wp s

/-- The state in which a fragment ends, by fall-through or by `goto open_failed`. -/
def final : Except St St → St
  | .ok s => s
  | .error s => s

/-- Whether a fragment falls through (no `goto open_failed`). -/
def fell_through : Except St St → Bool
  | .ok _ => true
  | .error _ => false

/-- Actions on streams: opening, closing, linking. -/
def Ev.is_stream : Ev → Bool
  | .pcm_open _ => true
  | .pcm_close _ => true
  | .link => true
  | _ => false

/-- The stream-related part of a state: the two output cells, the link flag of
the configuration record and the stream actions of the trace. -/
def St.streams (s : St) : Option Dir × Option Dir × Bool × List Ev :=
  (s.capture_handle, s.playback_handle, s.config.linking_capture_playback,
   s.trace.filter Ev.is_stream)

/-- The period-related part of a state: the variable `period_size` and `config->period`. -/
def St.periods (s : St) : Nat × Nat := (s.period_size, s.config.period)

/-- Fragment `f` leaves the projection `φ` of the state unchanged, however it ends. -/
def Pres {α : Type} (φ : St → α) (f : St → Except St St) : Prop :=
  ∀ s, φ (final (f s)) = φ s

/-- Whether fragment `f` falls through does not depend on the state and is `b`. -/
def OkIs (f : St → Except St St) (b : Bool) : Prop :=
  ∀ s, fell_through (f s) = b

/-- The stream actions a failed call leaves in the trace: `a`/`b` say whether
the capture/playback stream had been opened. -/
def rollback_trace (a b : Bool) : List Ev :=
  (if a then [Ev.pcm_open .capture] else []) ++ (if b then [Ev.pcm_open .playback] else []) ++
  (if a then [Ev.pcm_close .capture] else []) ++ (if b then [Ev.pcm_close .playback] else [])

/-- The stream actions a successful call leaves in the trace. -/
def success_trace (wc wp link : Bool) : List Ev :=
  (if wc then [Ev.pcm_open .capture] else []) ++ (if wp then [Ev.pcm_open .playback] else []) ++
  (if wc && wp && link then [Ev.link] else [])

/-- The tested calls made for direction `d`, in program order (the capture
block has no start-threshold call). -/
def steps : Dir → List Step
  | .capture =>
    [.pcm_open, .hw_params_malloc, .hw_params_any, .set_access, .set_format, .set_rate_near,
     .set_channels, .set_period_size_near, .set_buffer_size_near, .hw_params,
     .sw_params_malloc, .sw_params_current, .set_avail_min, .sw_params]
  | .playback =>
    [.pcm_open, .hw_params_malloc, .hw_params_any, .set_access, .set_format, .set_rate_near,
     .set_channels, .set_period_size_near, .set_buffer_size_near, .hw_params,
     .sw_params_malloc, .sw_params_current, .set_avail_min, .set_start_threshold, .sw_params]

/-- Whether the caller asked for direction `d` (passed a non-NULL pointer for it). -/
def requested (wc wp : Bool) : Dir → Bool
  | .capture => wc
  | .playback => wp

/-- Every tested call of direction `d` succeeds. -/
def all_ok (env : Alsa) (d : Dir) : Bool := (steps d).all (fun k => !env.fails d k)

/-- Sample environment: nothing fails, the device supports periods 32, 64 and
128 and rounds a request down to the nearest of them. -/
def env_32_64_128 : Alsa where
  fails := fun _ _ => false
  rate_near := fun _ r => r
  period_near := fun _ p => if p < 64 then 32 else if p < 128 then 64 else 128
  buffer_near := fun _ b => b
  link_ret := 0

/-- Sample configuration: 48 kHz stereo, requested period 37, 4 periods per buffer, linking on. -/
def config_37 : alsa_config where
  device := [104, 119, 58, 48]
  rate := 48000
  channels := 2
  period := 37
  buffer_period_count := 4
  priority := []
  linking_capture_playback := true

/-- The value of `config->period` after `period_check` when it was `old` and the
variable `period_size` is `new`. -/
def period_after (old new : Nat) : Nat := if new ≠ old then new % 2 ^ 32 else old

/-- Sample environment: nothing fails; the capture side supports periods 32, 64
and 128, the playback side only 64 and 128; requests are rounded down. -/
def env_c32_p64 : Alsa where
  fails := fun _ _ => false
  rate_near := fun _ r => r
  period_near := fun d p =>
    match d with
    | .capture => if p < 64 then 32 else if p < 128 then 64 else 128
    | .playback => if p < 128 then 64 else 128
  buffer_near := fun _ b => b
  link_ret := 0

/-! ## Part 2. The stdin handler, the reactor callbacks and `main` (src/atest.c) -/

/-- Size of `static char pipecmd[128]`. -/
def PIPECMD_SIZE : Nat := 128

/-- The bytes of the C string stored at the start of a buffer: those before the first NUL. -/
def cstr : List Nat → List Nat
  | [] => []
  | b :: bs => if b = 0 then [] else b :: cstr bs

/-- The C library `strlen` on a buffer. -/
def strlen (buf : List Nat) : Nat := (cstr buf).length

/-- The C library `strcmp` on two buffers, compared as unsigned bytes up to and
including the first NUL; the end of a list reads as NUL. -/
def strcmp : List Nat → List Nat → Int
  | [], [] => 0
  | [], b :: _ => - (b : Int)
  | a :: _, [] => (a : Int)
  | a :: as, b :: bs =>
    if a ≠ b then (a : Int) - (b : Int) else if a = 0 then 0 else strcmp as bs

/-- What one call of `on_stdin` does: the new content of `pipecmd`, whether
`ev_unloop` was called, and the indices of `pipecmd` that were stored to. -/
structure stdin_result where
  pipecmd : List Nat
  unloop : Bool
  writes : List Nat
  deriving DecidableEq, Repr

/-- The callback `on_stdin` (lines 36-67). `pipecmd` is the static buffer, `r`
the value returned by `read(0, &c, 1)` and `c` the content of the variable `c`
after the call: the byte read when `r = 1`, and whatever the uninitialised
variable holds when `read` stored nothing (`r <= 0`). A byte is a number below
256; 10 is the newline, 113 the letter q. -/
def on_stdin (pipecmd : List Nat) (r : Int) (c : Nat) : stdin_result :=
  if r < 0 then
    { pipecmd := pipecmd, unloop := true, writes := [] }
  else if c ≠ 10 then
    let l := strlen pipecmd
    if l < PIPECMD_SIZE - 2 then
      { pipecmd := (pipecmd.set l c).set (l + 1) 0, unloop := false, writes := [l, l + 1] }
    else
      { pipecmd := pipecmd, unloop := false, writes := [] }
  else
    if strcmp pipecmd [113, 0] = 0 then
      { pipecmd := pipecmd, unloop := true, writes := [] }
    else
      { pipecmd := pipecmd.set 0 0, unloop := false, writes := [0] }

/-- The buffer `buf` is a full `pipecmd` array holding the C string `p`. -/
def holds_line (buf p : List Nat) : Prop :=
  buf.length = PIPECMD_SIZE ∧ p.length ≤ PIPECMD_SIZE - 2 ∧ (∀ b ∈ p, b ≠ 0) ∧
    ∃ rest, buf = p ++ 0 :: rest

/-- The C string held by `pipecmd` after one more byte `c`, not a newline, has
arrived while it held `p`. -/
def line_push (p : List Nat) (c : Nat) : List Nat :=
  if c ≠ 0 ∧ p.length < PIPECMD_SIZE - 2 then p ++ [c] else p

/-- The content of `pipecmd` after the bytes `cs` have been delivered one at a
time, each by a `read` that returned 1. -/
def feed (pipecmd : List Nat) (cs : List Nat) : List Nat :=
  cs.foldl (fun buf c => (on_stdin buf 1 c).pipecmd) pipecmd

/-- The signals for which `main` installs `on_exit_signal`. -/
inductive exit_signal
  | SIGINT
  | SIGTERM
  deriving DecidableEq, Repr

/-- What the reactor can dispatch while `ev_run` is running: a signal, the
expiry of the duration timer, readiness of stdin (with the result `r` of the
`read` the callback will perform and the content `c` of its variable), or a
callback of one of the tests. The callbacks of the tests are not among the
sources; following section 4.2 of the specification such a callback may change
`seq_errors_total` (it leaves it at `total`) and may call the hook
`seq_error_notify` (it does when `notify` is set). -/
inductive reactor_event
  | signal (sig : exit_signal)
  | duration_timer
  | stdin_ready (r : Int) (c : Nat)
  | test_callback (total : Nat) (notify : Bool)
  deriving DecidableEq, Repr

/-- The three test variants `main` knows. -/
inductive variant
  | play
  | capture
  | loopback_delay
  deriving DecidableEq, Repr

/-- Actions of `main` on the tests and the reactor: the create function of
variant `v` called for the `n`-th TEST clause, the store `tests[i] = t` that
registers a descriptor, `start` and `close` of `tests[i]` with the value
returned, and `ev_run`. -/
inductive main_ev
  | create (n : Nat) (v : variant)
  | register (i : Nat)
  | start (i : Nat) (r : Int)
  | ev_run
  | close (i : Nat) (r : Int)
  deriving DecidableEq, Repr

/-- Modelled from the spec: `struct test` and its `ops` table are declared in
`test.h`, which is not among the sources. A test has a name and the operations
`start` and `close`; each is given here by the value it returns and the value
it leaves in the global `seq_errors_total`, as a function of the value it finds there. -/
structure test where
  name : String
  start : Nat → Int × Nat
  close : Nat → Int × Nat

/-- One TEST clause of the command line: the word `argv[0]`, whether the
options that follow it are accepted (no `?` from `getopt`, well-formed `-r` and
`-s` values), and what the create function of the variant returns for it. -/
structure clause where
  name : String
  opts_ok : Bool
  create : Option test

/-- The command line after `getopt_long`, together with the environment of one
run: the configuration left by `alsa_config_init`, the size of the array
`config.device` (fixed by `alsa.h`), and the events the reactor dispatches. -/
structure args where
  opts_ok : Bool
  opt_rate : Int
  opt_channels : Int
  opt_period : Int
  opt_duration : Int
  opt_assert : Bool
  opt_device : Option (List Nat)
  init_config : alsa_config
  sizeof_device : Nat
  clauses : List clause
  events : List reactor_event

/-- `#define MAX_TESTS 2`. -/
def MAX_TESTS : Nat := 2

/-- The process-wide state `main` and the callbacks work on: the counter
`seq_errors_total` (an unsigned counter, printed with `%u`), the buffer
`pipecmd`, and the trace of calls. -/
structure harness where
  seq_errors_total : Nat
  pipecmd : List Nat
  trace : List main_ev

/-- How a run ends: the process exits with a status, or `ev_run` has not
returned after the events supplied. -/
inductive status
  | exited (code : Nat)
  | running
  deriving DecidableEq, Repr

/-- The observable result of a run of `main`. -/
structure outcome where
  status : status
  seq_errors_total : Nat
  trace : List main_ev
  deriving DecidableEq, Repr

/-- Lines 198-204: the configuration record after the command-line overrides.
`strncpy` keeps at most `sizeof(config.device)-1` bytes of the device name. The
priority string has no influence on the control flow and is left as it is. -/
def configure (a : args) : alsa_config :=
  let c := a.init_config
  let c := if a.opt_rate > 0 then { c with rate := a.opt_rate.toNat } else c
  let c := if a.opt_channels > 0 then { c with channels := a.opt_channels.toNat } else c
  let c := if a.opt_period > 0 then { c with period := a.opt_period.toNat } else c
  match a.opt_device with
  | some d => { c with device := (cstr d).take (a.sizeof_device - 1) }
  | none => c

/-- One of the three branches of lines 224-317: the options of the clause are
parsed (`usage()` exits with 1 on a bad one), then the create function of the
variant is called; a NULL result exits with 1. The result is the descriptor and
the trace, or the exit status and the trace. -/
def construct (v : variant) (c : clause) (n : Nat) (tr : List main_ev) :
    Except (Nat × List main_ev) (Option test × List main_ev) :=
  if c.opts_ok = false then .error (1, tr)
  else
    match c.create with
    | none => .error (1, tr ++ [.create n v])
    | some t => .ok (some t, tr ++ [.create n v])

/-- Lines 223-317: the variable `t` after the `if`/`else if` chain on `argv[0]`. -/
def clause_test (c : clause) (n : Nat) (tr : List main_ev) :
    Except (Nat × List main_ev) (Option test × List main_ev) :=
  if c.name = "play" then construct .play c n tr
  else if c.name = "capture" then construct .capture c n tr
  else if c.name = "loopback_delay" then construct .loopback_delay c n tr
  else .ok (none, tr)

/-- Lines 222-331: the loop `while (argc)` over the TEST clauses. `n` counts the
clauses consumed, `tests` is the array `tests[]` (its length is `tests_count`).
`Except.error (code, trace)` is an `exit(code)`. -/
def build_tests : List clause → Nat → List test → List main_ev →
    Except (Nat × List main_ev) (List test × List main_ev)
  | [], _, tests, tr => .ok (tests, tr)
  | c :: cs, n, tests, tr =>
    match clause_test c n tr with
    | .error e => .error e
    | .ok (some t, tr1) =>
      if tests.length ≥ MAX_TESTS then .error (1, tr1)
      else build_tests cs (n + 1) (tests ++ [t]) (tr1 ++ [.register tests.length])
    | .ok (none, tr1) => .error (1, tr1)

/-- Lines 367-375: the loop that starts the tests, from index `i` on.
`Except.error h` is the `exit(1)` after a negative return value. -/
def start_tests : List test → Nat → harness → Except harness harness
  | [], _, h => .ok h
  | t :: ts, i, h =>
    let h1 : harness :=
      { h with seq_errors_total := (t.start h.seq_errors_total).2,
               trace := h.trace ++ [.start i (t.start h.seq_errors_total).1] }
    if (t.start h.seq_errors_total).1 < 0 then .error h1
    else start_tests ts (i + 1) h1

/-- One dispatch of the reactor: the callback registered for the event runs;
the result says whether it called `ev_unloop`. `on_exit_signal` (lines 72-83),
`on_duration_timer` (86-89, started only when `opt_duration > 0`), `on_stdin`
(36-67), and the hook `seq_error_assert` (92-95), which is installed as
`seq_error_notify` only when `opt_assert` is set (line 387); without it the hook
keeps its default, which does not stop the reactor. -/
def dispatch (opt_assert : Bool) (opt_duration : Int) (h : harness) :
    reactor_event → harness × Bool
  | .signal _ => (h, true)
  | .duration_timer => (h, decide (opt_duration > 0))
  | .stdin_ready r c =>
    ({ h with pipecmd := (on_stdin h.pipecmd r c).pipecmd }, (on_stdin h.pipecmd r c).unloop)
  | .test_callback total notify =>
    ({ h with seq_errors_total := total }, notify && opt_assert)

/-- The call `ev_run(loop, 0)` of line 400: events are dispatched until a
callback calls `ev_unloop`. The second component says whether `ev_run` returned. -/
def ev_run (opt_assert : Bool) (opt_duration : Int) : List reactor_event → harness → harness × Bool
  | [], h => (h, false)
  | e :: es, h =>
    if (dispatch opt_assert opt_duration h e).2 then ((dispatch opt_assert opt_duration h e).1, true)
    else ev_run opt_assert opt_duration es (dispatch opt_assert opt_duration h e).1

/-- Lines 402-409: the loop that closes the tests, from index `i` on; `st` is `test_exit_status`. -/
def close_tests : List test → Nat → harness → Nat → harness × Nat
  | [], _, h, st => (h, st)
  | t :: ts, i, h, st =>
    let h1 : harness :=
      { h with seq_errors_total := (t.close h.seq_errors_total).2,
               trace := h.trace ++ [.close i (t.close h.seq_errors_total).1] }
    close_tests ts (i + 1) h1 (if (t.close h.seq_errors_total).1 ≠ 0 then 1 else st)

/-- Lines 400-414: `ev_run`, then the closing loop and the exit status. -/
def run_and_close (a : args) (tests : List test) (h : harness) : outcome :=
  let h1 : harness := { h with trace := h.trace ++ [.ev_run] }
  if (ev_run a.opt_assert a.opt_duration a.events h1).2 then
    let h2 := (ev_run a.opt_assert a.opt_duration a.events h1).1
    let h3 := (close_tests tests 0 h2 0).1
    let test_exit_status := (close_tests tests 0 h2 0).2
    { status := .exited (if h3.seq_errors_total ≠ 0 ∨ test_exit_status ≠ 0 then 2 else 0),
      seq_errors_total := h3.seq_errors_total, trace := h3.trace }
  else
    { status := .running,
      seq_errors_total := (ev_run a.opt_assert a.opt_duration a.events h1).1.seq_errors_total,
      trace := (ev_run a.opt_assert a.opt_duration a.events h1).1.trace }

/-- The function `main` (lines 142-415). The scheduling-priority block (lines
337-364) only reports errors and is not represented; `seq_errors_total` starts
at 0 and `pipecmd` zero-filled. -/
def main (a : args) : outcome :=
  if a.opts_ok = false then { status := .exited 1, seq_errors_total := 0, trace := [] }
  else if cstr (configure a).device = [] then
    { status := .exited 1, seq_errors_total := 0, trace := [] }
  else
    match build_tests a.clauses 0 [] [] with
    | .error e => { status := .exited e.1, seq_errors_total := 0, trace := e.2 }
    | .ok (tests, tr) =>
      if tests.length = 0 then { status := .exited 1, seq_errors_total := 0, trace := tr }
      else
        match start_tests tests 0
            { seq_errors_total := 0, pipecmd := List.replicate PIPECMD_SIZE 0, trace := tr } with
        | .error h =>
          { status := .exited 1, seq_errors_total := h.seq_errors_total, trace := h.trace }
        | .ok h => run_and_close a tests h

/-- The indices of the tests on which `start` was called, in call order. -/
def start_ids (tr : List main_ev) : List Nat :=
  tr.filterMap (fun e => match e with
    | .start i _ => some i
    | _ => none)

/-- The indices of the tests on which `close` was called, in call order. -/
def close_ids (tr : List main_ev) : List Nat :=
  tr.filterMap (fun e => match e with
    | .close i _ => some i
    | _ => none)

/-- The clause numbers for which a create function was called, in call order. -/
def create_ids (tr : List main_ev) : List Nat :=
  tr.filterMap (fun e => match e with
    | .create n _ => some n
    | _ => none)

/-- The indices of `tests[]` that were stored to, in order. -/
def register_ids (tr : List main_ev) : List Nat :=
  tr.filterMap (fun e => match e with
    | .register i => some i
    | _ => none)

/-- Whether a word names one of the three tests. -/
def known_test (name : String) : Bool :=
  name = "play" || name = "capture" || name = "loopback_delay"

/-- A sample test whose `start` and `close` succeed and which records no sequence error. -/
def good_test : test where
  name := "play"
  start := fun n => (0, n)
  close := fun n => (0, n)

/-- A sample test whose `start` fails. -/
def bad_start_test : test where
  name := "capture"
  start := fun n => (-1, n)
  close := fun n => (0, n)

/-- A sample test whose `close` reports failure. -/
def bad_close_test : test where
  name := "capture"
  start := fun n => (0, n)
  close := fun n => (1, n)

/-- A sample command line: device `hw:0`, no TEST clause yet, no reactor event. -/
def sample_args : args where
  opts_ok := true
  opt_rate := -1
  opt_channels := -1
  opt_period := 0
  opt_duration := 0
  opt_assert := false
  opt_device := some [104, 119, 58, 48]
  init_config := { config_37 with device := [] }
  sizeof_device := 32
  clauses := []
  events := []

/-- A trace segment written by the loop over the TEST clauses: create calls and
stores into `tests[]` only. -/
def setup_only (evs : List main_ev) : Prop :=
  ∀ x ∈ evs, (∃ k v, x = main_ev.create k v) ∨ ∃ i, x = main_ev.register i

/-- A trace segment written by the start loop before any failure: `start` on
the tests `i`, `i+1`, .., `i+k-1` in this order, each returning a non-negative value. -/
def good_starts (evs : List main_ev) (i k : Nat) : Prop :=
  start_ids evs = List.range' i k ∧ close_ids evs = [] ∧ main_ev.ev_run ∉ evs ∧
  create_ids evs = [] ∧ ∀ j r, main_ev.start j r ∈ evs → 0 ≤ r

/-- A trace segment written by the close loop: `close` on the tests `i`, ..,
`i+k-1` in this order. -/
def all_closes (evs : List main_ev) (i k : Nat) : Prop :=
  close_ids evs = List.range' i k ∧ start_ids evs = [] ∧ main_ev.ev_run ∉ evs ∧
  create_ids evs = []

/-- A run with two tests, the second of which reports failure on close; the
line `q` arrives on stdin. -/
def args_two_tests : args :=
  { sample_args with
    clauses := [⟨"play", true, some good_test⟩, ⟨"capture", true, some bad_close_test⟩]
    events := [.stdin_ready 1 113, .stdin_ready 1 10] }

/-- A run with two tests stopped by SIGINT. -/
def args_sigint : args :=
  { sample_args with
    clauses := [⟨"play", true, some good_test⟩, ⟨"capture", true, some good_test⟩]
    events := [.test_callback 0 false, .signal .SIGINT] }

/-- A command line with three valid TEST clauses. -/
def args_three_tests : args :=
  { sample_args with
    clauses := [⟨"play", true, some good_test⟩, ⟨"capture", true, some good_test⟩,
      ⟨"play", true, some good_test⟩] }

/-- A run whose second test fails to start. -/
def args_bad_start : args :=
  { sample_args with
    clauses := [⟨"play", true, some good_test⟩, ⟨"capture", true, some bad_start_test⟩]
    events := [.signal .SIGTERM] }

/-- A run on a device that cannot be opened: the create function returns NULL. -/
def args_missing_device : args :=
  { sample_args with
    opt_device := some [109, 105, 115, 115, 105, 110, 103, 48]
    clauses := [⟨"play", true, none⟩] }

/-! ### Projections of the trace used for the descriptor and software-parameter claims -/

/-- Actions on parameter descriptors: allocation and release. -/
def Ev.is_desc : Ev → Bool
  | .hw_malloc _ => true
  | .hw_free _ => true
  | .sw_malloc _ => true
  | .sw_free _ => true
  | _ => false

/-- The descriptor-related part of a state: the variables `hw_params` and
`sw_params` and the descriptor actions of the trace. -/
def St.descs (s : St) : Option Dir × Option Dir × List Ev :=
  (s.hw_params, s.sw_params, s.trace.filter Ev.is_desc)

/-- The descriptor actions of one direction block over a whole call: `hw`/`sw`
say whether the hardware/software descriptor was allocated; each allocated
descriptor is released afterwards, by the block itself or at `open_failed`. -/
def desc_actions (d : Dir) (hw sw : Bool) : List Ev :=
  (if hw then [Ev.hw_malloc d] else []) ++ (if sw then [Ev.sw_malloc d] else []) ++
  (if hw then [Ev.hw_free d] else []) ++ (if sw then [Ev.sw_free d] else [])

/-- The period negotiation and the actions on software parameters. -/
def Ev.is_sw : Ev → Bool
  | .period_near _ _ _ => true
  | .set_avail_min _ _ => true
  | .set_start_threshold _ _ => true
  | .sw_commit _ => true
  | _ => false

/-- The part of a state the software parameters depend on: the variable
`period_size` and the negotiation and software-parameter actions of the trace. -/
def St.sws (s : St) : Nat × List Ev := (s.period_size, s.trace.filter Ev.is_sw)

/-- The negotiation and software-parameter actions of a capture block that
falls through, entered with `period_size = req`. -/
def capture_sw_actions (env : Alsa) (req : Nat) : List Ev :=
  [.period_near .capture req (env.period_near .capture req),
   .set_avail_min .capture (env.period_near .capture req),
   .sw_commit .capture]

/-- The negotiation and software-parameter actions of a playback block that
falls through, entered with `period_size = req`; `thr` is the start threshold passed. -/
def playback_sw_actions (env : Alsa) (req thr : Nat) : List Ev :=
  [.period_near .playback req (env.period_near .playback req),
   .set_avail_min .playback (env.period_near .playback req),
   .set_start_threshold .playback thr,
   .sw_commit .playback]

/-- Sample configuration: as `config_37`, with a period count that does not fit `int`. -/
def config_huge_count : alsa_config :=
  { config_37 with buffer_period_count := 2147483649 }

/-! ## Part 3. Theorems -/

/-! ### Sequencing of statements -/

theorem run_cons (f : St → Except St St) (fs : List (St → Except St St)) (s : St) :
    run (f :: fs) s = match f s with
      | .ok s1 => run fs s1
      | .error s1 => .error s1 := rfl

theorem pres_nil {α : Type} (φ : St → α) : Pres φ (run []) := fun _ => rfl

theorem pres_cons {α : Type} (φ : St → α) (f : St → Except St St)
    (fs : List (St → Except St St)) (hf : Pres φ f) (hfs : Pres φ (run fs)) :
    Pres φ (run (f :: fs)) := by
  intro s
  have h1 := hf s
  rw [run_cons]
  cases h : f s with
  | error s1 => rw [h] at h1; simpa [final] using h1
  | ok s1 =>
    rw [h] at h1
    have h2 := hfs s1
    simp only [final] at h1
    simp only [h2, h1]

theorem okis_nil : OkIs (run []) true := fun _ => rfl

theorem okis_cons (f : St → Except St St) (fs : List (St → Except St St)) (b c : Bool)
    (hf : OkIs f b) (hfs : OkIs (run fs) c) : OkIs (run (f :: fs)) (b && c) := by
  intro s
  have h1 := hf s
  rw [run_cons]
  cases h : f s with
  | error s1 => rw [h] at h1; simp [fell_through] at h1 ⊢; simp [← h1]
  | ok s1 =>
    rw [h] at h1
    have h2 := hfs s1
    simp [fell_through] at h1
    simp [h2, ← h1]

/-! ### Which statements fall through -/

theorem okis_pcm_open (env : Alsa) (d : Dir) :
    OkIs (pcm_open_step env d) (!env.fails d .pcm_open) := by
  intro s; unfold pcm_open_step; split_ifs with h <;> simp [fell_through, h]

theorem okis_hw_params_malloc (env : Alsa) (d : Dir) :
    OkIs (hw_params_malloc_step env d) (!env.fails d .hw_params_malloc) := by
  intro s; unfold hw_params_malloc_step; split_ifs with h <;> simp [fell_through, h]

theorem okis_check (env : Alsa) (d : Dir) (k : Step) :
    OkIs (check env d k) (!env.fails d k) := by
  intro s; unfold check; split_ifs with h <;> simp [fell_through, h]

theorem okis_set_rate_near (env : Alsa) (d : Dir) :
    OkIs (set_rate_near_step env d) (!env.fails d .set_rate_near) := by
  intro s; unfold set_rate_near_step; split_ifs with h <;> simp [fell_through, h]

theorem okis_set_period_size_near (env : Alsa) (d : Dir) :
    OkIs (set_period_size_near_step env d) (!env.fails d .set_period_size_near) := by
  intro s; unfold set_period_size_near_step; split_ifs with h <;> simp [fell_through, h]

theorem okis_period_check (d : Dir) : OkIs (period_check d) true := by
  intro s; unfold period_check; split_ifs <;> simp [fell_through]

theorem okis_compute_buffer_size (pc : Int) : OkIs (compute_buffer_size pc) true :=
  fun _ => rfl

theorem okis_set_buffer_size_near (env : Alsa) (d : Dir) :
    OkIs (set_buffer_size_near_step env d) (!env.fails d .set_buffer_size_near) := by
  intro s; unfold set_buffer_size_near_step; split_ifs with h <;> simp [fell_through, h]

theorem okis_sw_params_malloc (env : Alsa) (d : Dir) :
    OkIs (sw_params_malloc_step env d) (!env.fails d .sw_params_malloc) := by
  intro s; unfold sw_params_malloc_step; split_ifs with h <;> simp [fell_through, h]

theorem okis_set_avail_min (env : Alsa) (d : Dir) :
    OkIs (set_avail_min_step env d) (!env.fails d .set_avail_min) := by
  intro s; unfold set_avail_min_step; split_ifs with h <;> simp [fell_through, h]

theorem okis_set_start_threshold (env : Alsa) (pc : Int) (d : Dir) :
    OkIs (set_start_threshold_step env pc d) (!env.fails d .set_start_threshold) := by
  intro s; unfold set_start_threshold_step; split_ifs with h <;> simp [fell_through, h]

theorem okis_sw_params (env : Alsa) (d : Dir) :
    OkIs (sw_params_step env d) (!env.fails d .sw_params) := by
  intro s; unfold sw_params_step; split_ifs with h <;> simp [fell_through, h]

theorem okis_release : OkIs release true := fun _ => rfl

/-- The capture block falls through exactly when none of its tested calls fails. -/
theorem okis_capture_block (env : Alsa) (pc : Int) :
    OkIs (run (capture_block env pc)) (all_ok env .capture) := by
  have h : OkIs (run (capture_block env pc)) _ :=
    okis_cons _ _ _ _ (okis_pcm_open env _) <|
    okis_cons _ _ _ _ (okis_hw_params_malloc env _) <|
    okis_cons _ _ _ _ (okis_check env _ _) <|
    okis_cons _ _ _ _ (okis_check env _ _) <|
    okis_cons _ _ _ _ (okis_check env _ _) <|
    okis_cons _ _ _ _ (okis_set_rate_near env _) <|
    okis_cons _ _ _ _ (okis_check env _ _) <|
    okis_cons _ _ _ _ (okis_set_period_size_near env _) <|
    okis_cons _ _ _ _ (okis_period_check _) <|
    okis_cons _ _ _ _ (okis_compute_buffer_size _) <|
    okis_cons _ _ _ _ (okis_set_buffer_size_near env _) <|
    okis_cons _ _ _ _ (okis_check env _ _) <|
    okis_cons _ _ _ _ (okis_sw_params_malloc env _) <|
    okis_cons _ _ _ _ (okis_check env _ _) <|
    okis_cons _ _ _ _ (okis_set_avail_min env _) <|
    okis_cons _ _ _ _ (okis_sw_params env _) <|
    okis_cons _ _ _ _ okis_release okis_nil
  intro s
  rw [h s]
  simp [all_ok, steps, Bool.and_assoc]

/-- The playback block falls through exactly when none of its tested calls fails. -/
theorem okis_playback_block (env : Alsa) (pc : Int) :
    OkIs (run (playback_block env pc)) (all_ok env .playback) := by
  have h : OkIs (run (playback_block env pc)) _ :=
    okis_cons _ _ _ _ (okis_pcm_open env _) <|
    okis_cons _ _ _ _ (okis_hw_params_malloc env _) <|
    okis_cons _ _ _ _ (okis_check env _ _) <|
    okis_cons _ _ _ _ (okis_check env _ _) <|
    okis_cons _ _ _ _ (okis_check env _ _) <|
    okis_cons _ _ _ _ (okis_set_rate_near env _) <|
    okis_cons _ _ _ _ (okis_check env _ _) <|
    okis_cons _ _ _ _ (okis_set_period_size_near env _) <|
    okis_cons _ _ _ _ (okis_period_check _) <|
    okis_cons _ _ _ _ (okis_compute_buffer_size _) <|
    okis_cons _ _ _ _ (okis_set_buffer_size_near env _) <|
    okis_cons _ _ _ _ (okis_check env _ _) <|
    okis_cons _ _ _ _ (okis_sw_params_malloc env _) <|
    okis_cons _ _ _ _ (okis_check env _ _) <|
    okis_cons _ _ _ _ (okis_set_avail_min env _) <|
    okis_cons _ _ _ _ (okis_set_start_threshold env _ _) <|
    okis_cons _ _ _ _ (okis_sw_params env _) <|
    okis_cons _ _ _ _ okis_release okis_nil
  intro s
  rw [h s]
  simp [all_ok, steps, Bool.and_assoc]

/-! ### Statements that leave the streams, or the period, alone -/

@[simp]
theorem pres_streams_release : Pres St.streams release := by
  intro s
  simp only [release, final, St.free_hw, St.free_sw]
  cases h1 : s.hw_params <;> cases h2 : s.sw_params <;>
    simp [St.streams, St.log, List.filter_append, Ev.is_stream, h1, h2]

@[simp]
theorem pres_periods_release : Pres St.periods release := by
  intro s
  simp only [release, final, St.free_hw, St.free_sw]
  cases h1 : s.hw_params <;> cases h2 : s.sw_params <;>
    simp [St.periods, St.log, h1, h2]

@[simp]
theorem pres_streams_compute_buffer_size (pc : Int) :
    Pres St.streams (compute_buffer_size pc) := fun _ => rfl

@[simp]
theorem pres_periods_compute_buffer_size (pc : Int) :
    Pres St.periods (compute_buffer_size pc) := fun _ => rfl

@[simp]
theorem pres_periods_pcm_open (env : Alsa) (d : Dir) :
    Pres St.periods (pcm_open_step env d) := by
  intro s; unfold pcm_open_step
  split_ifs <;> simp only [final, St.periods, St.log] <;> cases d <;> rfl

@[simp]
theorem pres_streams_hw_params_malloc (env : Alsa) (d : Dir) :
    Pres St.streams (hw_params_malloc_step env d) := by
  intro s; unfold hw_params_malloc_step
  split_ifs <;> simp [final, St.streams, St.log, List.filter_append, Ev.is_stream]

@[simp]
theorem pres_periods_hw_params_malloc (env : Alsa) (d : Dir) :
    Pres St.periods (hw_params_malloc_step env d) := by
  intro s; unfold hw_params_malloc_step
  split_ifs <;> simp [final, St.periods, St.log]

@[simp]
theorem pres_streams_check (env : Alsa) (d : Dir) (k : Step) :
    Pres St.streams (check env d k) := by
  intro s; unfold check
  split_ifs <;> simp [final, St.streams, St.log, List.filter_append, Ev.is_stream]

@[simp]
theorem pres_periods_check (env : Alsa) (d : Dir) (k : Step) :
    Pres St.periods (check env d k) := by
  intro s; unfold check
  split_ifs <;> simp [final, St.periods, St.log]

@[simp]
theorem pres_streams_set_rate_near (env : Alsa) (d : Dir) :
    Pres St.streams (set_rate_near_step env d) := by
  intro s; unfold set_rate_near_step
  split_ifs <;> simp [final, St.streams, St.log, List.filter_append, Ev.is_stream]

@[simp]
theorem pres_periods_set_rate_near (env : Alsa) (d : Dir) :
    Pres St.periods (set_rate_near_step env d) := by
  intro s; unfold set_rate_near_step
  split_ifs <;> simp [final, St.periods, St.log]

@[simp]
theorem pres_streams_set_period_size_near (env : Alsa) (d : Dir) :
    Pres St.streams (set_period_size_near_step env d) := by
  intro s; unfold set_period_size_near_step
  split_ifs <;> simp [final, St.streams, St.log, List.filter_append, Ev.is_stream]

@[simp]
theorem pres_streams_period_check (d : Dir) :
    Pres St.streams (period_check d) := by
  intro s; unfold period_check
  split_ifs <;> simp [final, St.streams, St.log, List.filter_append, Ev.is_stream]

@[simp]
theorem pres_streams_set_buffer_size_near (env : Alsa) (d : Dir) :
    Pres St.streams (set_buffer_size_near_step env d) := by
  intro s; unfold set_buffer_size_near_step
  split_ifs <;> simp [final, St.streams, St.log, List.filter_append, Ev.is_stream]

@[simp]
theorem pres_periods_set_buffer_size_near (env : Alsa) (d : Dir) :
    Pres St.periods (set_buffer_size_near_step env d) := by
  intro s; unfold set_buffer_size_near_step
  split_ifs <;> simp [final, St.periods, St.log]

@[simp]
theorem pres_streams_sw_params_malloc (env : Alsa) (d : Dir) :
    Pres St.streams (sw_params_malloc_step env d) := by
  intro s; unfold sw_params_malloc_step
  split_ifs <;> simp [final, St.streams, St.log, List.filter_append, Ev.is_stream]

@[simp]
theorem pres_periods_sw_params_malloc (env : Alsa) (d : Dir) :
    Pres St.periods (sw_params_malloc_step env d) := by
  intro s; unfold sw_params_malloc_step
  split_ifs <;> simp [final, St.periods, St.log]

@[simp]
theorem pres_streams_set_avail_min (env : Alsa) (d : Dir) :
    Pres St.streams (set_avail_min_step env d) := by
  intro s; unfold set_avail_min_step
  split_ifs <;> simp [final, St.streams, St.log, List.filter_append, Ev.is_stream]

@[simp]
theorem pres_periods_set_avail_min (env : Alsa) (d : Dir) :
    Pres St.periods (set_avail_min_step env d) := by
  intro s; unfold set_avail_min_step
  split_ifs <;> simp [final, St.periods, St.log]

@[simp]
theorem pres_streams_set_start_threshold (env : Alsa) (pc : Int) (d : Dir) :
    Pres St.streams (set_start_threshold_step env pc d) := by
  intro s; unfold set_start_threshold_step
  split_ifs <;> simp [final, St.streams, St.log, List.filter_append, Ev.is_stream]

@[simp]
theorem pres_periods_set_start_threshold (env : Alsa) (pc : Int) (d : Dir) :
    Pres St.periods (set_start_threshold_step env pc d) := by
  intro s; unfold set_start_threshold_step
  split_ifs <;> simp [final, St.periods, St.log]

@[simp]
theorem pres_streams_sw_params (env : Alsa) (d : Dir) :
    Pres St.streams (sw_params_step env d) := by
  intro s; unfold sw_params_step
  split_ifs <;> simp [final, St.streams, St.log, List.filter_append, Ev.is_stream]

@[simp]
theorem pres_periods_sw_params (env : Alsa) (d : Dir) :
    Pres St.periods (sw_params_step env d) := by
  intro s; unfold sw_params_step
  split_ifs <;> simp [final, St.periods, St.log]

/-! ### The streams after each block and after `open_failed` -/

/-- A list of statements each of which preserves `φ` preserves `φ`. -/
theorem pres_run {α : Type} (φ : St → α) (fs : List (St → Except St St))
    (h : ∀ f ∈ fs, Pres φ f) : Pres φ (run fs) := by
  induction fs with
  | nil => exact pres_nil φ
  | cons f fs ih =>
    exact pres_cons φ f fs (h f (List.mem_cons_self _ _))
      (ih (fun g hg => h g (List.mem_cons_of_mem _ hg)))

/-- Everything after `snd_pcm_open` in the capture block leaves the streams alone. -/
theorem pres_streams_capture_tail (env : Alsa) (pc : Int) :
    Pres St.streams (run (capture_block env pc).tail) := by
  apply pres_run
  simp [capture_block]

/-- Everything after `snd_pcm_open` in the playback block leaves the streams alone. -/
theorem pres_streams_playback_tail (env : Alsa) (pc : Int) :
    Pres St.streams (run (playback_block env pc).tail) := by
  apply pres_run
  simp [playback_block]

/-- The streams after the capture block, however it ends. -/
theorem capture_block_streams (env : Alsa) (pc : Int) (s : St) :
    (final (run (capture_block env pc) s)).streams =
      if env.fails .capture .pcm_open then
        (none, s.playback_handle, s.config.linking_capture_playback, s.trace.filter Ev.is_stream)
      else
        (some .capture, s.playback_handle, s.config.linking_capture_playback,
          s.trace.filter Ev.is_stream ++ [.pcm_open .capture]) := by
  have e : capture_block env pc = pcm_open_step env .capture :: (capture_block env pc).tail := rfl
  rw [e, run_cons]
  unfold pcm_open_step
  split_ifs with h
  · simp [final, St.streams, St.set_handle]
  · simp only []
    rw [pres_streams_capture_tail env pc]
    simp [St.streams, St.set_handle, St.log, List.filter_append, Ev.is_stream]

/-- The streams after the playback block, however it ends. -/
theorem playback_block_streams (env : Alsa) (pc : Int) (s : St) :
    (final (run (playback_block env pc) s)).streams =
      if env.fails .playback .pcm_open then
        (s.capture_handle, none, s.config.linking_capture_playback, s.trace.filter Ev.is_stream)
      else
        (s.capture_handle, some .playback, s.config.linking_capture_playback,
          s.trace.filter Ev.is_stream ++ [.pcm_open .playback]) := by
  have e : playback_block env pc = pcm_open_step env .playback :: (playback_block env pc).tail := rfl
  rw [e, run_cons]
  unfold pcm_open_step
  split_ifs with h
  · simp [final, St.streams, St.set_handle]
  · simp only []
    rw [pres_streams_playback_tail env pc]
    simp [St.streams, St.set_handle, St.log, List.filter_append, Ev.is_stream]

/-- How the capture block ends: fallen through with the stream open, or at
`open_failed` with the stream either not opened or still open. -/
theorem capture_block_cases (env : Alsa) (pc : Int) (s : St) :
    (∃ s1, run (capture_block env pc) s = .ok s1 ∧ all_ok env .capture = true ∧
      s1.streams = (some .capture, s.playback_handle, s.config.linking_capture_playback,
        s.trace.filter Ev.is_stream ++ [.pcm_open .capture])) ∨
    (∃ s1, run (capture_block env pc) s = .error s1 ∧ all_ok env .capture = false ∧
      (s1.streams = (none, s.playback_handle, s.config.linking_capture_playback,
          s.trace.filter Ev.is_stream) ∨
       s1.streams = (some .capture, s.playback_handle, s.config.linking_capture_playback,
          s.trace.filter Ev.is_stream ++ [.pcm_open .capture]))) := by
  have h1 := okis_capture_block env pc s
  have h2 := capture_block_streams env pc s
  cases h : run (capture_block env pc) s with
  | ok s1 =>
    left
    rw [h] at h1 h2
    simp only [fell_through] at h1
    have h3 : env.fails .capture .pcm_open = false := by
      have := h1.symm
      simp [all_ok, steps] at this
      exact this.1
    simp only [final, h3] at h2
    exact ⟨s1, rfl, h1.symm, by simpa using h2⟩
  | error s1 =>
    right
    rw [h] at h1 h2
    simp only [fell_through] at h1
    simp only [final] at h2
    refine ⟨s1, rfl, h1.symm, ?_⟩
    split_ifs at h2
    · left; exact h2
    · right; exact h2

/-- How the playback block ends. -/
theorem playback_block_cases (env : Alsa) (pc : Int) (s : St) :
    (∃ s1, run (playback_block env pc) s = .ok s1 ∧ all_ok env .playback = true ∧
      s1.streams = (s.capture_handle, some .playback, s.config.linking_capture_playback,
        s.trace.filter Ev.is_stream ++ [.pcm_open .playback])) ∨
    (∃ s1, run (playback_block env pc) s = .error s1 ∧ all_ok env .playback = false ∧
      (s1.streams = (s.capture_handle, none, s.config.linking_capture_playback,
          s.trace.filter Ev.is_stream) ∨
       s1.streams = (s.capture_handle, some .playback, s.config.linking_capture_playback,
          s.trace.filter Ev.is_stream ++ [.pcm_open .playback]))) := by
  have h1 := okis_playback_block env pc s
  have h2 := playback_block_streams env pc s
  cases h : run (playback_block env pc) s with
  | ok s1 =>
    left
    rw [h] at h1 h2
    simp only [fell_through] at h1
    have h3 : env.fails .playback .pcm_open = false := by
      have := h1.symm
      simp [all_ok, steps] at this
      exact this.1
    simp only [final, h3] at h2
    exact ⟨s1, rfl, h1.symm, by simpa using h2⟩
  | error s1 =>
    right
    rw [h] at h1 h2
    simp only [fell_through] at h1
    simp only [final] at h2
    refine ⟨s1, rfl, h1.symm, ?_⟩
    split_ifs at h2
    · left; exact h2
    · right; exact h2

theorem streams_free_hw (s : St) : s.free_hw.streams = s.streams := by
  unfold St.free_hw
  cases s.hw_params <;> simp [St.streams, St.log, List.filter_append, Ev.is_stream]

theorem streams_free_sw (s : St) : s.free_sw.streams = s.streams := by
  unfold St.free_sw
  cases s.sw_params <;> simp [St.streams, St.log, List.filter_append, Ev.is_stream]

/-- The label `open_failed:` in terms of the streams of the state it is entered in. -/
theorem open_failed_streams (wc wp : Bool) (s : St) (c p : Option Dir) (l : Bool) (t : List Ev)
    (h : s.streams = (c, p, l, t)) :
    (open_failed wc wp s).ret = -1 ∧
    (open_failed wc wp s).capture_handle = (if wc then none else c) ∧
    (open_failed wc wp s).playback_handle = (if wp then none else p) ∧
    (open_failed wc wp s).trace.filter Ev.is_stream =
      t ++ (if wc then (c.map Ev.pcm_close).toList else []) ++
        (if wp then (p.map Ev.pcm_close).toList else []) := by
  have h0 : s.free_hw.free_sw.streams = (c, p, l, t) := by
    rw [streams_free_sw, streams_free_hw, h]
  simp only [open_failed]
  generalize s.free_hw.free_sw = s2 at h0
  simp only [St.streams, Prod.mk.injEq] at h0
  obtain ⟨hc, hp, -, ht⟩ := h0
  subst hc hp ht
  simp only [St.close, St.handle]
  cases wc <;> cases wp <;> cases h3 : s2.capture_handle <;> cases h4 : s2.playback_handle <;>
    simp [St.log, St.set_handle, List.filter_append, Ev.is_stream, h3, h4]

/-- The two ways `alsa_device_open` can end, with the output cells and the
stream actions of the trace in each. -/
theorem alsa_device_open_streams (env : Alsa) (config : alsa_config) (wc wp : Bool) :
    (((wc = true → all_ok env .capture = true) ∧ (wp = true → all_ok env .playback = true)) ∧
      (alsa_device_open env config wc wp).ret = 0 ∧
      (alsa_device_open env config wc wp).capture_handle = (if wc then some .capture else none) ∧
      (alsa_device_open env config wc wp).playback_handle = (if wp then some .playback else none) ∧
      (alsa_device_open env config wc wp).trace.filter Ev.is_stream =
        success_trace wc wp config.linking_capture_playback) ∨
    (¬ ((wc = true → all_ok env .capture = true) ∧ (wp = true → all_ok env .playback = true)) ∧
      (alsa_device_open env config wc wp).ret = -1 ∧
      (alsa_device_open env config wc wp).capture_handle = none ∧
      (alsa_device_open env config wc wp).playback_handle = none ∧
      ∃ a b : Bool, (a = true → wc = true) ∧ (b = true → wp = true) ∧
        (alsa_device_open env config wc wp).trace.filter Ev.is_stream = rollback_trace a b) := by
  simp only [alsa_device_open]
  have hst0 : (init_state config).streams = (none, none, config.linking_capture_playback, []) := rfl
  generalize init_state config = s0 at hst0
  -- the state after the capture part
  have hcap : (∃ s1, (if wc = true then run (capture_block env (to_int config.buffer_period_count)) s0
          else .ok s0) = .ok s1 ∧ (wc = true → all_ok env .capture = true) ∧
        s1.streams = (if wc then some .capture else none, none, config.linking_capture_playback,
          if wc then [Ev.pcm_open .capture] else [])) ∨
      (∃ s1, (if wc = true then run (capture_block env (to_int config.buffer_period_count)) s0
          else .ok s0) = .error s1 ∧ wc = true ∧ all_ok env .capture = false ∧
        ∃ a : Bool, s1.streams = (if a then some .capture else none, none,
          config.linking_capture_playback, if a then [Ev.pcm_open .capture] else [])) := by
    cases wc with
    | false => left; exact ⟨s0, by simp, by simp, by simpa using hst0⟩
    | true =>
      simp only [St.streams, Prod.mk.injEq] at hst0
      rcases capture_block_cases env (to_int config.buffer_period_count) s0 with
        ⟨s1, h1, hok, hst⟩ | ⟨s1, h1, hok, hst | hst⟩
      · left; exact ⟨s1, by simp [h1], fun _ => hok, by simpa [hst0] using hst⟩
      · right; exact ⟨s1, by simp [h1], rfl, hok, false, by simpa [hst0] using hst⟩
      · right; exact ⟨s1, by simp [h1], rfl, hok, true, by simpa [hst0] using hst⟩
  rcases hcap with ⟨s1, h1, hokc, hst1⟩ | ⟨s1, h1, hwc, hokc, a, hst1⟩
  · rw [h1]
    simp only []
    have hpb : (∃ s2, (if wp = true then run (playback_block env (to_int config.buffer_period_count)) s1
            else .ok s1) = .ok s2 ∧ (wp = true → all_ok env .playback = true) ∧
          s2.streams = (if wc then some .capture else none, if wp then some .playback else none,
            config.linking_capture_playback,
            (if wc then [Ev.pcm_open .capture] else []) ++
              (if wp then [Ev.pcm_open .playback] else []))) ∨
        (∃ s2, (if wp = true then run (playback_block env (to_int config.buffer_period_count)) s1
            else .ok s1) = .error s2 ∧ wp = true ∧ all_ok env .playback = false ∧
          ∃ b : Bool, s2.streams = (if wc then some .capture else none,
            if b then some .playback else none, config.linking_capture_playback,
            (if wc then [Ev.pcm_open .capture] else []) ++
              (if b then [Ev.pcm_open .playback] else []))) := by
      cases wp with
      | false => left; exact ⟨s1, by simp, by simp, by simpa using hst1⟩
      | true =>
        simp only [St.streams, Prod.mk.injEq] at hst1
        rcases playback_block_cases env (to_int config.buffer_period_count) s1 with
          ⟨s2, h2, hok, hst⟩ | ⟨s2, h2, hok, hst | hst⟩
        · left; exact ⟨s2, by simp [h2], fun _ => hok, by simpa [hst1] using hst⟩
        · right; exact ⟨s2, by simp [h2], rfl, hok, false, by simpa [hst1] using hst⟩
        · right; exact ⟨s2, by simp [h2], rfl, hok, true, by simpa [hst1] using hst⟩
    rcases hpb with ⟨s2, h2, hokp, hst2⟩ | ⟨s2, h2, hwp, hokp, b, hst2⟩
    · left
      rw [h2]
      simp only [St.streams, Prod.mk.injEq] at hst2
      obtain ⟨e1, e2, e3, e4⟩ := hst2
      refine ⟨⟨hokc, hokp⟩, ?_, ?_, ?_, ?_⟩
      · simp [link_and_return]
      · simp only [link_and_return]; rw [← e1]; split_ifs <;> rfl
      · simp only [link_and_return]; rw [← e2]; split_ifs <;> rfl
      · simp only [link_and_return, success_trace]
        rw [← e3]
        cases hl : (wc && wp && s2.config.linking_capture_playback) <;>
          by_cases hr : env.link_ret = 0 <;>
          simp [St.log, List.filter_append, Ev.is_stream, e4, hr]
    · right
      rw [h2]
      simp only []
      obtain ⟨r1, r2, r3, r4⟩ := open_failed_streams wc wp s2 _ _ _ _ hst2
      refine ⟨by simp [hwp, hokp], r1, ?_, ?_, wc, b, fun h => h, fun _ => hwp, ?_⟩
      · rw [r2]; cases wc <;> simp
      · rw [r3]; simp [hwp]
      · rw [r4]; subst hwp; cases wc <;> cases b <;> simp [rollback_trace]
  · right
    rw [h1]
    simp only []
    obtain ⟨r1, r2, r3, r4⟩ := open_failed_streams wc wp s1 _ _ _ _ hst1
    refine ⟨by simp [hwc, hokc], r1, ?_, ?_, a, false, fun _ => hwc, by simp, ?_⟩
    · rw [r2]; simp [hwc]
    · rw [r3]; cases wp <;> simp
    · rw [r4]; subst hwc; cases wp <;> cases a <;> simp [rollback_trace]

/-! ### Claims about `alsa_device_open` -/

/-- Claim C1 (all-or-nothing open). For every environment, configuration and
choice of requested directions: (1) if any tested ALSA call of a requested
direction fails, `alsa_device_open` returns -1; (2) whenever it returns -1 both
output cells are NULL and every stream opened during the call was closed exactly
once (at most one open per direction, as many closes as opens); (3) it returns
0 only when no tested call of a requested direction fails, and then every
requested output cell is non-NULL; (4) it returns nothing but 0 or -1. Hence a
state with one direction open and the other failed is never returned. -/
theorem alsa_device_open_all_or_nothing (env : Alsa) (config : alsa_config) (wc wp : Bool) :
    (∀ d k, requested wc wp d = true → k ∈ steps d → env.fails d k = true →
      (alsa_device_open env config wc wp).ret = -1) ∧
    ((alsa_device_open env config wc wp).ret = -1 →
      (alsa_device_open env config wc wp).capture_handle = none ∧
      (alsa_device_open env config wc wp).playback_handle = none ∧
      ∀ d, (alsa_device_open env config wc wp).trace.count (.pcm_open d) ≤ 1 ∧
        (alsa_device_open env config wc wp).trace.count (.pcm_close d) =
          (alsa_device_open env config wc wp).trace.count (.pcm_open d)) ∧
    ((alsa_device_open env config wc wp).ret = 0 →
      (∀ d k, requested wc wp d = true → k ∈ steps d → env.fails d k = false) ∧
      (wc = true → (alsa_device_open env config wc wp).capture_handle ≠ none) ∧
      (wp = true → (alsa_device_open env config wc wp).playback_handle ≠ none)) ∧
    ((alsa_device_open env config wc wp).ret = 0 ∨
      (alsa_device_open env config wc wp).ret = -1) := by
  have hcnt : ∀ e : Ev, e.is_stream = true →
      (alsa_device_open env config wc wp).trace.count e =
        ((alsa_device_open env config wc wp).trace.filter Ev.is_stream).count e :=
    fun e he => (List.count_filter he).symm
  have hall : ∀ d, all_ok env d = true ↔ ∀ k, k ∈ steps d → env.fails d k = false := by
    intro d; simp [all_ok, List.all_eq_true]
  rcases alsa_device_open_streams env config wc wp with
    ⟨⟨hokc, hokp⟩, hret, hch, hph, htr⟩ | ⟨hnot, hret, hch, hph, a, b, ha, hb, htr⟩
  · refine ⟨?_, ?_, ?_, Or.inl hret⟩
    · intro d k hd hk hf
      exfalso
      cases d with
      | capture => have := (hall _).1 (hokc hd) k hk; simp [hf] at this
      | playback => have := (hall _).1 (hokp hd) k hk; simp [hf] at this
    · intro h; rw [hret] at h; exact absurd h (by decide)
    · intro _
      refine ⟨?_, ?_, ?_⟩
      · intro d k hd hk
        cases d with
        | capture => exact (hall _).1 (hokc hd) k hk
        | playback => exact (hall _).1 (hokp hd) k hk
      · intro h; rw [hch]; simp [h]
      · intro h; rw [hph]; simp [h]
  · refine ⟨fun _ _ _ _ _ => hret, ?_, ?_, Or.inr hret⟩
    · intro _
      refine ⟨hch, hph, ?_⟩
      intro d
      rw [hcnt (.pcm_open d) rfl, hcnt (.pcm_close d) rfl, htr]
      cases d <;> cases a <;> cases b <;> decide
    · intro h; rw [hret] at h; exact absurd h (by decide)

/-- Claim C4 (linking). When every tested call of the requested directions
succeeds, then whatever value `link_ret` the call `snd_pcm_link` returns:
`snd_pcm_link` is called exactly when both directions were requested and
`config.linking_capture_playback` is set; the call returns 0; each requested
output cell holds its open stream; and no stream is closed. -/
theorem link_attempted_iff_and_never_fatal (env : Alsa) (link_ret : Int) (config : alsa_config)
    (wc wp : Bool)
    (hc : wc = true → all_ok env .capture = true)
    (hp : wp = true → all_ok env .playback = true) :
    (Ev.link ∈ (alsa_device_open { env with link_ret := link_ret } config wc wp).trace ↔
      (wc = true ∧ wp = true ∧ config.linking_capture_playback = true)) ∧
    (alsa_device_open { env with link_ret := link_ret } config wc wp).ret = 0 ∧
    (wc = true →
      (alsa_device_open { env with link_ret := link_ret } config wc wp).capture_handle
        = some .capture) ∧
    (wp = true →
      (alsa_device_open { env with link_ret := link_ret } config wc wp).playback_handle
        = some .playback) ∧
    (∀ d, Ev.pcm_close d ∉
      (alsa_device_open { env with link_ret := link_ret } config wc wp).trace) := by
  have hmem : ∀ e : Ev, e.is_stream = true →
      (e ∈ (alsa_device_open { env with link_ret := link_ret } config wc wp).trace ↔
        e ∈ (alsa_device_open { env with link_ret := link_ret } config wc wp).trace.filter
          Ev.is_stream) := by
    intro e he; simp [List.mem_filter, he]
  rcases alsa_device_open_streams { env with link_ret := link_ret } config wc wp with
    ⟨-, hret, hch, hph, htr⟩ | ⟨hnot, -⟩
  · refine ⟨?_, hret, ?_, ?_, ?_⟩
    · rw [hmem .link rfl, htr]
      cases wc <;> cases wp <;> cases config.linking_capture_playback <;>
        simp [success_trace]
    · intro h; rw [hch]; simp [h]
    · intro h; rw [hph]; simp [h]
    · intro d
      rw [hmem (.pcm_close d) rfl, htr]
      cases wc <;> cases wp <;> cases config.linking_capture_playback <;>
        simp [success_trace]
  · exact absurd ⟨hc, hp⟩ hnot

/-- Witness for C4: capture and playback on a device where nothing fails, link flag set,
`snd_pcm_link` returning -1. -/
theorem link_attempted_iff_and_never_fatal_witness :
    Ev.link ∈ (alsa_device_open { env_32_64_128 with link_ret := -1 } config_37 true true).trace ∧
    (alsa_device_open { env_32_64_128 with link_ret := -1 } config_37 true true).ret = 0 :=
  have h := link_attempted_iff_and_never_fatal env_32_64_128 (-1) config_37 true true
    (by decide) (by decide)
  ⟨h.1.2 ⟨rfl, rfl, rfl⟩, h.2.1⟩

/-! ### The period written back to the configuration record -/

theorem run_append (a b : List (St → Except St St)) (s : St) :
    run (a ++ b) s = match run a s with
      | .ok s1 => run b s1
      | .error s1 => .error s1 := by
  induction a generalizing s with
  | nil => rfl
  | cons f fs ih =>
    simp only [List.cons_append, run_cons]
    cases f s with
    | ok s1 => exact ih s1
    | error s1 => rfl

theorem set_period_size_near_ok (env : Alsa) (d : Dir) (s s1 : St)
    (h : set_period_size_near_step env d s = .ok s1) :
    s1.periods = (env.period_near d s.period_size, s.config.period) := by
  unfold set_period_size_near_step at h
  split_ifs at h
  simp only [Except.ok.injEq] at h
  subst h
  rfl

theorem period_check_ok (d : Dir) (s s1 : St) (h : period_check d s = .ok s1) :
    s1.periods = (s.period_size, period_after s.config.period s.period_size) := by
  unfold period_check at h
  split_ifs at h with h1
  · simp only [Except.ok.injEq] at h
    subst h
    simp [St.periods, St.log, period_after, h1]
  · simp only [Except.ok.injEq] at h
    subst h
    simp only [not_not] at h1
    simp [St.periods, period_after, h1]

/-- The two statements that negotiate the period, lines 67-75 / 155-164. -/
theorem period_statements (env : Alsa) (d : Dir) (s s2 : St)
    (h : run [set_period_size_near_step env d, period_check d] s = .ok s2) :
    s2.periods = (env.period_near d s.period_size,
      period_after s.config.period (env.period_near d s.period_size)) := by
  rw [run_cons] at h
  cases h1 : set_period_size_near_step env d s with
  | error e => rw [h1] at h; cases h
  | ok s1 =>
    rw [h1] at h
    simp only [] at h
    rw [run_cons] at h
    cases h2 : period_check d s1 with
    | error e => rw [h2] at h; cases h
    | ok s3 =>
      rw [h2] at h
      simp only [run, Except.ok.injEq] at h
      subst h
      have p1 := set_period_size_near_ok env d s s1 h1
      have p2 := period_check_ok d s1 s3 h2
      simp only [St.periods, Prod.mk.injEq] at p1
      rw [p2, p1.1, p1.2]

/-- The period after a block that fell through, stated for any list of
statements of the shape `a ++ [negotiate, check] ++ c` whose other statements
leave the period alone. -/
theorem block_periods (env : Alsa) (d : Dir) (a c : List (St → Except St St))
    (ha : ∀ f ∈ a, Pres St.periods f) (hc : ∀ f ∈ c, Pres St.periods f) (s s3 : St)
    (h : run (a ++ ([set_period_size_near_step env d, period_check d] ++ c)) s = .ok s3) :
    s3.periods = (env.period_near d s.period_size,
      period_after s.config.period (env.period_near d s.period_size)) := by
  rw [run_append] at h
  cases hA : run a s with
  | error s1 => rw [hA] at h; cases h
  | ok s1 =>
    have p1 : s1.periods = s.periods := by
      have := pres_run St.periods a ha s
      rwa [hA] at this
    rw [hA] at h
    simp only [] at h
    rw [run_append] at h
    cases hB : run [set_period_size_near_step env d, period_check d] s1 with
    | error s2 => rw [hB] at h; cases h
    | ok s2 =>
      have p2 := period_statements env d s1 s2 hB
      rw [hB] at h
      simp only [] at h
      have p3 : s3.periods = s2.periods := by
        have := pres_run St.periods c hc s2
        rwa [h] at this
      simp only [St.periods, Prod.mk.injEq] at p1
      rw [p3, p2, p1.1, p1.2]

theorem capture_block_periods (env : Alsa) (pc : Int) (s s3 : St)
    (h : run (capture_block env pc) s = .ok s3) :
    s3.periods = (env.period_near .capture s.period_size,
      period_after s.config.period (env.period_near .capture s.period_size)) := by
  have e : capture_block env pc = (capture_block env pc).take 7 ++
      ([set_period_size_near_step env .capture, period_check .capture] ++
        (capture_block env pc).drop 9) := rfl
  rw [e] at h
  exact block_periods env .capture _ _ (by simp [capture_block]) (by simp [capture_block]) s s3 h

theorem playback_block_periods (env : Alsa) (pc : Int) (s s3 : St)
    (h : run (playback_block env pc) s = .ok s3) :
    s3.periods = (env.period_near .playback s.period_size,
      period_after s.config.period (env.period_near .playback s.period_size)) := by
  have e : playback_block env pc = (playback_block env pc).take 7 ++
      ([set_period_size_near_step env .playback, period_check .playback] ++
        (playback_block env pc).drop 9) := rfl
  rw [e] at h
  exact block_periods env .playback _ _ (by simp [playback_block]) (by simp [playback_block])
    s s3 h

theorem open_failed_ret (wc wp : Bool) (s : St) : (open_failed wc wp s).ret = -1 := rfl

theorem link_and_return_config (env : Alsa) (wc wp : Bool) (s : St) :
    (link_and_return env wc wp s).config = s.config := by
  simp only [link_and_return]
  split_ifs <;> rfl

/-- The period field after a successful call, in terms of what the device returned. -/
theorem alsa_device_open_period (env : Alsa) (config : alsa_config) (wc wp : Bool)
    (hret : (alsa_device_open env config wc wp).ret = 0) :
    (alsa_device_open env config wc wp).config.period =
      if wp then
        period_after
          (if wc then period_after config.period (env.period_near .capture config.period)
            else config.period)
          (env.period_near .playback
            (if wc then env.period_near .capture config.period else config.period))
      else if wc then period_after config.period (env.period_near .capture config.period)
      else config.period := by
  simp only [alsa_device_open] at hret ⊢
  have hp0 : (init_state config).periods = (config.period, config.period) := rfl
  generalize init_state config = s0 at hret hp0 ⊢
  have hcap : ∀ s1, (if wc = true then run (capture_block env (to_int config.buffer_period_count)) s0
      else Except.ok s0) = .ok s1 →
      s1.periods = (if wc then env.period_near .capture config.period else config.period,
        if wc then period_after config.period (env.period_near .capture config.period)
          else config.period) := by
    intro s1 h1
    simp only [St.periods, Prod.mk.injEq] at hp0
    cases wc with
    | false =>
      simp only [Bool.false_eq_true, if_false, Except.ok.injEq] at h1
      subst h1
      simp [St.periods, hp0]
    | true =>
      simp only [if_true] at h1
      have := capture_block_periods env _ s0 s1 h1
      simpa [hp0] using this
  cases h1 : (if wc = true then run (capture_block env (to_int config.buffer_period_count)) s0
      else Except.ok s0) with
  | error e => rw [h1] at hret; simp [open_failed_ret] at hret
  | ok s1 =>
    have q1 := hcap s1 h1
    rw [h1] at hret
    simp only [] at hret ⊢
    cases h2 : (if wp = true then run (playback_block env (to_int config.buffer_period_count)) s1
        else Except.ok s1) with
    | error e => rw [h2] at hret; simp [open_failed_ret] at hret
    | ok s2 =>
      simp only [link_and_return_config]
      simp only [St.periods, Prod.mk.injEq] at q1
      cases wp with
      | false =>
        simp only [Bool.false_eq_true, if_false, Except.ok.injEq] at h2
        subst h2
        simp [q1.2]
      | true =>
        simp only [if_true] at h2
        have q2 := playback_block_periods env _ s1 s2 h2
        simp only [St.periods, Prod.mk.injEq] at q2
        simp [q2.2, q1.1, q1.2]

theorem period_after_of_lt (old new : Nat) (h : old < 2 ^ 32) :
    period_after old new = new % 2 ^ 32 := by
  unfold period_after
  split_ifs with h1
  · rfl
  · simp only [not_not] at h1
    subst h1
    exact (Nat.mod_eq_of_lt h).symm

theorem period_after_self (old : Nat) : period_after old old = old := by
  simp [period_after]

/-- Claim C5, amended (period written back). After a successful call on a
configuration whose period fits its 32-bit field: if playback was requested,
`config.period` is the value the device returned for the playback stream (the
request for it being the value negotiated for capture when capture was
requested too), reduced to 32 bits; if only capture was requested it is the
value returned for the capture stream; and when every negotiation returns the
incoming value of the field, the field is unchanged. The value negotiated for
capture is thus overwritten when playback negotiates a different one. -/
theorem period_field_is_last_negotiated (env : Alsa) (config : alsa_config) (wc wp : Bool)
    (hty : config.period < 2 ^ 32)
    (hret : (alsa_device_open env config wc wp).ret = 0) :
    (wp = true → (alsa_device_open env config wc wp).config.period =
      env.period_near .playback
        (if wc then env.period_near .capture config.period else config.period) % 2 ^ 32) ∧
    (wc = true → wp = false → (alsa_device_open env config wc wp).config.period =
      env.period_near .capture config.period % 2 ^ 32) ∧
    ((wc = true → env.period_near .capture config.period = config.period) →
      (wp = true → env.period_near .playback config.period = config.period) →
      (alsa_device_open env config wc wp).config.period = config.period) := by
  rw [alsa_device_open_period env config wc wp hret]
  refine ⟨?_, ?_, ?_⟩
  · intro h
    subst h
    simp only [if_true]
    apply period_after_of_lt
    cases wc with
    | false => simpa using hty
    | true =>
      simp only [if_true]
      rw [period_after_of_lt _ _ hty]
      exact Nat.mod_lt _ (by norm_num)
  · intro h1 h2
    subst h1 h2
    simp only [Bool.false_eq_true, if_false, if_true]
    exact period_after_of_lt _ _ hty
  · intro h1 h2
    cases wc <;> cases wp <;> simp_all [period_after_self]

/-- Witness for C5 (amended): the scenario of the specification, a device
supporting periods 32, 64 and 128 and a request of 37. -/
theorem period_field_is_last_negotiated_witness :
    (alsa_device_open env_32_64_128 config_37 true true).config.period = 32 :=
  ((period_field_is_last_negotiated env_32_64_128 config_37 true true (by decide)
    (by decide)).1 rfl).trans (by decide)

/-- Claim C5 as stated fails: with a capture side that returns 32 and a
playback side that returns 64 the call succeeds, the device returned 32 for the
capture stream that was opened, and `config.period` ends as 64. -/
theorem period_field_differs_from_capture_period :
    (alsa_device_open env_c32_p64 config_37 true true).ret = 0 ∧
    Ev.period_near .capture 37 32 ∈ (alsa_device_open env_c32_p64 config_37 true true).trace ∧
    (alsa_device_open env_c32_p64 config_37 true true).config.period = 64 := by
  decide

/-! ### The line buffer of `on_stdin` -/

theorem cstr_append_nul (p rest : List Nat) (hp : ∀ b ∈ p, b ≠ 0) :
    cstr (p ++ 0 :: rest) = p := by
  induction p with
  | nil => simp [cstr]
  | cons a as ih =>
    have ha : a ≠ 0 := hp a (List.mem_cons_self _ _)
    have := ih (fun b hb => hp b (List.mem_cons_of_mem _ hb))
    simp [cstr, ha, this]

theorem cstr_of_holds_line (buf p : List Nat) (h : holds_line buf p) : cstr buf = p := by
  obtain ⟨-, -, hp, rest, rfl⟩ := h
  exact cstr_append_nul p rest hp

theorem strcmp_q (buf : List Nat) : strcmp buf [113, 0] = 0 ↔ cstr buf = [113] := by
  cases buf with
  | nil => simp [strcmp, cstr]
  | cons a as =>
    by_cases ha : a = 113
    · subst ha
      cases as with
      | nil => simp [strcmp, cstr]
      | cons b bs =>
        by_cases hb : b = 0
        · subst hb; simp [strcmp, cstr]
        · simp [strcmp, cstr, hb]
    · have h1 : (a : Int) - 113 ≠ 0 := by omega
      by_cases h0 : a = 0
      · subst h0; simp [strcmp, cstr]
      · simp [strcmp, cstr, ha, h1, h0]

theorem on_stdin_no_unloop (buf : List Nat) (r : Int) (c : Nat) (hr : 0 ≤ r) (hc : c ≠ 10) :
    (on_stdin buf r c).unloop = false := by
  have h1 : ¬ (r < 0) := by omega
  simp only [on_stdin, h1, if_false, hc, ne_eq, not_false_eq_true, if_true]
  split_ifs <;> rfl

theorem holds_line_push (buf p : List Nat) (c : Nat) (h : holds_line buf p) (hc : c ≠ 10) :
    holds_line (on_stdin buf 1 c).pipecmd (line_push p c) := by
  have hs : strlen buf = p.length := by rw [strlen, cstr_of_holds_line buf p h]
  obtain ⟨hlen, hple, hp, rest, rfl⟩ := h
  have h1 : ¬ ((1 : Int) < 0) := by decide
  simp only [on_stdin, hs, line_push, h1, if_false, hc, ne_eq, not_false_eq_true, if_true]
  by_cases hl : p.length < PIPECMD_SIZE - 2
  · simp only [hl, if_true, and_true]
    simp only [PIPECMD_SIZE, List.length_append, List.length_cons] at hlen hl
    obtain ⟨r, rest2, rfl⟩ : ∃ r rest2, rest = r :: rest2 := by
      cases rest with
      | nil => simp at hlen; omega
      | cons r rest2 => exact ⟨r, rest2, rfl⟩
    have e : ((p ++ 0 :: r :: rest2).set p.length c).set (p.length + 1) 0
        = p ++ c :: 0 :: rest2 := by
      simp [List.set_append]
    rw [e]
    simp only [List.length_cons] at hlen
    by_cases hc0 : c = 0
    · subst hc0
      simp only [not_true_eq_false, if_false]
      exact ⟨by simp [PIPECMD_SIZE]; omega, by simp [PIPECMD_SIZE]; omega, hp, 0 :: rest2, rfl⟩
    · simp only [hc0, not_false_eq_true, if_true]
      refine ⟨by simp [PIPECMD_SIZE]; omega, by simp [PIPECMD_SIZE]; omega, ?_, rest2, by simp⟩
      intro b hb
      rcases List.mem_append.1 hb with hb | hb
      · exact hp b hb
      · simp at hb; rw [hb]; exact hc0
  · simp only [hl, if_false, and_false]
    exact ⟨hlen, hple, hp, rest, rfl⟩

/-- The line after a whole sequence of bytes. -/
theorem holds_line_feed (cs : List Nat) (buf p : List Nat) (h : holds_line buf p)
    (hc : ∀ c ∈ cs, c ≠ 10) :
    holds_line (feed buf cs) ((p ++ cs.filter (fun c => c ≠ 0)).take (PIPECMD_SIZE - 2)) := by
  induction cs generalizing buf p with
  | nil =>
    have := h.2.1
    simpa [feed, List.take_of_length_le this] using h
  | cons c cs ih =>
    have hstep := holds_line_push buf p c h (hc c (List.mem_cons_self _ _))
    have := ih _ _ hstep (fun x hx => hc x (List.mem_cons_of_mem _ hx))
    have e : ((line_push p c) ++ cs.filter (fun c => c ≠ 0)).take (PIPECMD_SIZE - 2)
        = (p ++ (c :: cs).filter (fun c => c ≠ 0)).take (PIPECMD_SIZE - 2) := by
      unfold line_push
      by_cases hc0 : c = 0
      · simp [hc0]
      · by_cases hl : p.length < PIPECMD_SIZE - 2
        · simp [hc0, hl]
        · have hl2 : PIPECMD_SIZE - 2 ≤ p.length := by omega
          simp [hc0, hl, List.take_append_of_le_length hl2]
    rw [← e]
    simpa [feed] using this

theorem take_eq_singleton (l : List Nat) (x n : Nat) (hn : 2 ≤ n) :
    l.take n = [x] ↔ l = [x] := by
  constructor
  · intro h
    have hl := congrArg List.length h
    simp only [List.length_take, List.length_singleton] at hl
    have : l.length ≤ n := by omega
    rwa [List.take_of_length_le this] at h
  · intro h
    subst h
    have : ([x] : List Nat).length ≤ n := by simp; omega
    exact List.take_of_length_le this

theorem newline_unloop (buf : List Nat) :
    (on_stdin buf 1 10).unloop = true ↔ cstr buf = [113] := by
  have h1 : ¬ ((1 : Int) < 0) := by decide
  simp only [on_stdin, h1, if_false, ne_eq, not_true_eq_false]
  rw [← strcmp_q]
  split_ifs with h <;> simp [h]

/-- From an empty line, the newline after the bytes `cs` requests shutdown
exactly when the bytes other than NUL are the single letter q. -/
theorem quits_iff (buf cs : List Nat) (h0 : holds_line buf []) (hnl : ∀ c ∈ cs, c ≠ 10) :
    (on_stdin (feed buf cs) 1 10).unloop = true ↔ cs.filter (fun c => c ≠ 0) = [113] := by
  have hfeed := holds_line_feed cs buf [] h0 hnl
  rw [newline_unloop, cstr_of_holds_line _ _ hfeed]
  simp only [List.nil_append]
  exact take_eq_singleton _ _ _ (by decide)

theorem holds_line_of_empty (buf : List Nat) (hlen : buf.length = PIPECMD_SIZE)
    (hempty : strlen buf = 0) : holds_line buf [] := by
  cases buf with
  | nil => simp [PIPECMD_SIZE] at hlen
  | cons b bs =>
    by_cases hb : b = 0
    · subst hb
      exact ⟨hlen, by simp, by simp, bs, rfl⟩
    · simp [strlen, cstr, hb] at hempty

/-- After a line that is not the quit command the buffer holds the empty string. -/
theorem holds_line_reset (buf p : List Nat) (h : holds_line buf p)
    (hq : (on_stdin buf 1 10).unloop = false) :
    holds_line (on_stdin buf 1 10).pipecmd [] := by
  have h1 : ¬ ((1 : Int) < 0) := by decide
  simp only [on_stdin, h1, if_false, ne_eq, not_true_eq_false] at hq ⊢
  split_ifs at hq ⊢ with hs
  obtain ⟨hlen, -, -, rest, rfl⟩ := h
  cases p with
  | nil => exact ⟨by simpa using hlen, by simp, by simp, rest, by simp⟩
  | cons a as => exact ⟨by simpa using hlen, by simp, by simp, as ++ 0 :: rest, by simp⟩

/-! ### Claims about `on_stdin` -/

/-- Claim C8, amended (the stdin command line). Starting from a `pipecmd` that
holds the empty string and delivering bytes `cs`, none of them a newline, one
at a time: shutdown is not requested before the newline; the newline requests
shutdown exactly when `cs` without its NUL bytes is the single letter q; and
when it does not, `pipecmd` holds the empty string again, so that a following
line `q` requests shutdown. -/
theorem stdin_line_quits_iff_q (buf cs : List Nat) (hlen : buf.length = PIPECMD_SIZE)
    (hempty : strlen buf = 0) (hnl : ∀ c ∈ cs, c ≠ 10) :
    (∀ pre c post, cs = pre ++ c :: post → (on_stdin (feed buf pre) 1 c).unloop = false) ∧
    ((on_stdin (feed buf cs) 1 10).unloop = true ↔ cs.filter (fun c => c ≠ 0) = [113]) ∧
    ((on_stdin (feed buf cs) 1 10).unloop = false →
      (on_stdin (feed buf cs) 1 10).pipecmd.length = PIPECMD_SIZE ∧
      strlen (on_stdin (feed buf cs) 1 10).pipecmd = 0 ∧
      (on_stdin (feed (on_stdin (feed buf cs) 1 10).pipecmd [113]) 1 10).unloop = true) := by
  have h0 := holds_line_of_empty buf hlen hempty
  refine ⟨?_, quits_iff buf cs h0 hnl, ?_⟩
  · intro pre c post hcs
    apply on_stdin_no_unloop _ _ _ (by decide)
    apply hnl
    rw [hcs]
    simp
  · intro hq
    have hr := holds_line_reset _ _ (holds_line_feed cs buf [] h0 hnl) hq
    refine ⟨hr.1, ?_, ?_⟩
    · rw [strlen, cstr_of_holds_line _ _ hr]; rfl
    · exact (quits_iff _ [113] hr (by decide)).2 (by decide)

/-- Witness for C8: the line `quit` does not request shutdown, and the line `q`
after it does. -/
theorem stdin_line_quits_iff_q_witness :
    (on_stdin (feed (List.replicate 128 0) [113, 117, 105, 116]) 1 10).unloop = false ∧
    (on_stdin (feed (on_stdin (feed (List.replicate 128 0) [113, 117, 105, 116]) 1 10).pipecmd
      [113]) 1 10).unloop = true :=
  have h := stdin_line_quits_iff_q (List.replicate 128 0) [113, 117, 105, 116]
    (List.length_replicate _ _) rfl (by decide)
  have hq : (on_stdin (feed (List.replicate 128 0) [113, 117, 105, 116]) 1 10).unloop = false := by
    cases hu : (on_stdin (feed (List.replicate 128 0) [113, 117, 105, 116]) 1 10).unloop with
    | false => rfl
    | true => exact absurd (h.2.1.1 hu) (by decide)
  ⟨hq, (h.2.2 hq).2.2⟩

/-- Claim C8 as stated fails: the two bytes NUL, q contain no newline and are
not the single letter q, yet the newline after them requests shutdown. -/
theorem stdin_nul_q_quits :
    (∀ c ∈ [0, 113], c ≠ 10) ∧ [0, 113] ≠ [113] ∧
    (on_stdin (feed (List.replicate 128 0) [0, 113]) 1 10).unloop = true := by
  decide

/-- Claim C9 (end of file on stdin), evaluated on the code: when `read`
returns 0, `on_stdin` does not call `ev_unloop` for any content of `pipecmd` as
long as the variable `c`, which `read` left untouched, does not hold a newline;
with an empty `pipecmd` it does not call it whether `c` holds a letter or a
newline; it does so when `read` returns a negative value. -/
theorem stdin_eof_does_not_unloop :
    (∀ buf c, c ≠ 10 → (on_stdin buf 0 c).unloop = false) ∧
    (on_stdin (List.replicate 128 0) 0 97).unloop = false ∧
    (on_stdin (List.replicate 128 0) 0 10).unloop = false ∧
    (on_stdin (List.replicate 128 0) (-1) 97).unloop = true :=
  ⟨fun buf c hc => on_stdin_no_unloop buf 0 c (by decide) hc, by decide, by decide, by decide⟩

/-! ### The trace segments written by the phases of `main` -/

theorem start_ids_append (a b : List main_ev) : start_ids (a ++ b) = start_ids a ++ start_ids b := by
  simp [start_ids, List.filterMap_append]

theorem close_ids_append (a b : List main_ev) : close_ids (a ++ b) = close_ids a ++ close_ids b := by
  simp [close_ids, List.filterMap_append]

theorem create_ids_append (a b : List main_ev) :
    create_ids (a ++ b) = create_ids a ++ create_ids b := by
  simp [create_ids, List.filterMap_append]

theorem register_ids_append (a b : List main_ev) :
    register_ids (a ++ b) = register_ids a ++ register_ids b := by
  simp [register_ids, List.filterMap_append]

theorem setup_only_nil : setup_only [] := by
  intro x hx; cases hx

theorem setup_only_append (a b : List main_ev) (ha : setup_only a) (hb : setup_only b) :
    setup_only (a ++ b) := by
  intro x hx
  rcases List.mem_append.1 hx with h | h
  · exact ha x h
  · exact hb x h

theorem setup_only_create (k : Nat) (v : variant) : setup_only [main_ev.create k v] := by
  intro x hx
  simp at hx
  exact Or.inl ⟨k, v, hx⟩

theorem setup_only_register (i : Nat) : setup_only [main_ev.register i] := by
  intro x hx
  simp at hx
  exact Or.inr ⟨i, hx⟩

theorem setup_only_facts (evs : List main_ev) (h : setup_only evs) :
    start_ids evs = [] ∧ close_ids evs = [] ∧ main_ev.ev_run ∉ evs := by
  induction evs with
  | nil => simp [start_ids, close_ids]
  | cons e es ih =>
    have := ih (fun x hx => h x (List.mem_cons_of_mem _ hx))
    obtain ⟨h1, h2, h3⟩ := this
    simp only [start_ids, close_ids] at h1 h2 ⊢
    rcases h _ (List.mem_cons_self _ _) with ⟨k, v, rfl⟩ | ⟨i, rfl⟩ <;> simp [h1, h2, h3]

/-- What `clause_test` does: it exits with 1 or leaves `t`, after at most one create call. -/
theorem clause_test_spec (c : clause) (n : Nat) (tr : List main_ev) :
    (∃ tr1, clause_test c n tr = .error (1, tr1) ∧
      (tr1 = tr ∨ ∃ v, tr1 = tr ++ [.create n v]) ∧
      (c.opts_ok = false ∨ c.create = none) ∧ known_test c.name = true) ∨
    (∃ t v, clause_test c n tr = .ok (some t, tr ++ [.create n v]) ∧
      known_test c.name = true ∧ c.opts_ok = true ∧ c.create = some t) ∨
    (clause_test c n tr = .ok (none, tr) ∧ known_test c.name = false) := by
  have hc : ∀ v, (∃ tr1, construct v c n tr = .error (1, tr1) ∧
      (tr1 = tr ∨ ∃ v, tr1 = tr ++ [.create n v]) ∧ (c.opts_ok = false ∨ c.create = none)) ∨
      (∃ t, construct v c n tr = .ok (some t, tr ++ [.create n v]) ∧
        c.opts_ok = true ∧ c.create = some t) := by
    intro v
    unfold construct
    cases ho : c.opts_ok with
    | false => left; exact ⟨tr, by simp, Or.inl rfl, Or.inl rfl⟩
    | true =>
      cases hcr : c.create with
      | none => left; exact ⟨_, by simp, Or.inr ⟨v, rfl⟩, Or.inr rfl⟩
      | some t => right; exact ⟨t, by simp, rfl, rfl⟩
  unfold clause_test known_test
  by_cases h1 : c.name = "play"
  · rw [if_pos h1]
    rcases hc .play with ⟨tr1, e1, e2, e3⟩ | ⟨t, e1, e2, e3⟩
    · left; exact ⟨tr1, e1, e2, e3, by simp [h1]⟩
    · right; left; exact ⟨t, _, e1, by simp [h1], e2, e3⟩
  · rw [if_neg h1]
    by_cases h2 : c.name = "capture"
    · rw [if_pos h2]
      rcases hc .capture with ⟨tr1, e1, e2, e3⟩ | ⟨t, e1, e2, e3⟩
      · left; exact ⟨tr1, e1, e2, e3, by simp [h2]⟩
      · right; left; exact ⟨t, _, e1, by simp [h2], e2, e3⟩
    · rw [if_neg h2]
      by_cases h3 : c.name = "loopback_delay"
      · rw [if_pos h3]
        rcases hc .loopback_delay with ⟨tr1, e1, e2, e3⟩ | ⟨t, e1, e2, e3⟩
        · left; exact ⟨tr1, e1, e2, e3, by simp [h3]⟩
        · right; left; exact ⟨t, _, e1, by simp [h3], e2, e3⟩
      · rw [if_neg h3]
        right; right
        simp [h1, h2, h3]

/-- The loop over the TEST clauses: it exits with 1 after at most
`MAX_TESTS + 1 - tests_count` create calls, or registers every clause; a
descriptor is stored into `tests[]` only below `MAX_TESTS`. -/
theorem build_tests_spec (cs : List clause) (n : Nat) (ts : List test) (tr : List main_ev)
    (hts : ts.length ≤ MAX_TESTS) :
    (∃ evs k j, build_tests cs n ts tr = .error (1, tr ++ evs) ∧ setup_only evs ∧
      create_ids evs = List.range' n k ∧ register_ids evs = List.range' ts.length j ∧
      k ≤ cs.length ∧ ts.length + k ≤ MAX_TESTS + 1 ∧ ts.length + j ≤ MAX_TESTS) ∨
    (∃ ts1 evs, build_tests cs n ts tr = .ok (ts1, tr ++ evs) ∧ setup_only evs ∧
      create_ids evs = List.range' n cs.length ∧
      register_ids evs = List.range' ts.length cs.length ∧
      ts1.length = ts.length + cs.length ∧ ts1.length ≤ MAX_TESTS ∧
      ∀ c ∈ cs, known_test c.name = true ∧ c.opts_ok = true ∧ c.create ≠ none) := by
  induction cs generalizing n ts tr with
  | nil =>
    right
    exact ⟨ts, [], by simp [build_tests], setup_only_nil, rfl, rfl, by simp, hts, by simp⟩
  | cons c cs ih =>
    unfold build_tests
    rcases clause_test_spec c n tr with ⟨tr1, e1, e2, -, -⟩ | ⟨t, v, e1, hk, ho, hcr⟩ | ⟨e1, -⟩
    · left
      rw [e1]
      rcases e2 with rfl | ⟨v, rfl⟩
      · exact ⟨[], 0, 0, by simp, setup_only_nil, rfl, rfl, by simp, by omega, hts⟩
      · exact ⟨[.create n v], 1, 0, rfl, setup_only_create n v, rfl, rfl, by simp, by
          have : ts.length ≤ MAX_TESTS := hts
          omega, hts⟩
    · rw [e1]
      simp only []
      by_cases hfull : ts.length ≥ MAX_TESTS
      · left
        rw [if_pos hfull]
        exact ⟨[.create n v], 1, 0, rfl, setup_only_create n v, rfl, rfl, by simp, by omega, hts⟩
      · rw [if_neg hfull]
        have hts1 : (ts ++ [t]).length ≤ MAX_TESTS := by simp; omega
        have hc : ∀ evs : List main_ev,
            create_ids (main_ev.create n v :: main_ev.register ts.length :: evs)
              = n :: create_ids evs := fun _ => rfl
        have hr : ∀ evs : List main_ev,
            register_ids (main_ev.create n v :: main_ev.register ts.length :: evs)
              = ts.length :: register_ids evs := fun _ => rfl
        have hso : ∀ evs, setup_only evs →
            setup_only (main_ev.create n v :: main_ev.register ts.length :: evs) :=
          fun evs h => setup_only_append [_] _ (setup_only_create n v)
            (setup_only_append [_] evs (setup_only_register _) h)
        rcases ih (n + 1) (ts ++ [t]) (tr ++ [.create n v] ++ [.register ts.length]) hts1 with
          ⟨evs, k, j, h1, h2, h3, h3r, h4, h5, h5r⟩ | ⟨ts1, evs, h1, h2, h3, h3r, h4, h5, h6⟩
        · left
          refine ⟨.create n v :: .register ts.length :: evs, k + 1, j + 1, by simpa using h1,
            hso evs h2, ?_, ?_, by simp; omega, ?_, ?_⟩
          · rw [hc, h3]; rfl
          · rw [hr, h3r]; simp [List.range'_succ]
          · simp at h5; omega
          · simp at h5r; omega
        · right
          refine ⟨ts1, .create n v :: .register ts.length :: evs, by simpa using h1,
            hso evs h2, ?_, ?_, ?_, h5, ?_⟩
          · rw [hc, h3]; rfl
          · rw [hr, h3r]; simp [List.range'_succ]
          · simp at h4 ⊢; omega
          · intro c1 hc1
            rcases List.mem_cons.1 hc1 with rfl | hc1
            · exact ⟨hk, ho, by simp [hcr]⟩
            · exact h6 c1 hc1
    · left
      rw [e1]
      exact ⟨[], 0, 0, by simp, setup_only_nil, rfl, rfl, by simp, by omega, hts⟩

theorem good_starts_nil (i : Nat) : good_starts [] i 0 := by
  simp [good_starts, start_ids, close_ids, create_ids]

theorem good_starts_cons (evs : List main_ev) (i k : Nat) (r : Int) (hr : 0 ≤ r)
    (h : good_starts evs (i + 1) k) : good_starts (.start i r :: evs) i (k + 1) := by
  obtain ⟨h1, h2, h3, h4, h5⟩ := h
  refine ⟨?_, ?_, ?_, ?_, ?_⟩
  · have : start_ids (main_ev.start i r :: evs) = i :: start_ids evs := rfl
    rw [this, h1]; rfl
  · have : close_ids (main_ev.start i r :: evs) = close_ids evs := rfl
    rw [this, h2]
  · simp [h3]
  · have : create_ids (main_ev.start i r :: evs) = create_ids evs := rfl
    rw [this, h4]
  · intro j r1 hj
    rcases List.mem_cons.1 hj with e | hj
    · cases e; exact hr
    · exact h5 j r1 hj

/-- The start loop: either every test was started, or the loop stopped at the
first negative return value. -/
theorem start_tests_spec (ts : List test) (i : Nat) (h : harness) :
    (∃ h1 evs, start_tests ts i h = .ok h1 ∧ h1.trace = h.trace ++ evs ∧
      h1.pipecmd = h.pipecmd ∧ good_starts evs i ts.length) ∨
    (∃ h1 evs k r, start_tests ts i h = .error h1 ∧
      h1.trace = h.trace ++ (evs ++ [.start (i + k) r]) ∧ r < 0 ∧ k < ts.length ∧
      good_starts evs i k) := by
  induction ts generalizing i h with
  | nil =>
    left
    exact ⟨h, [], rfl, by simp, rfl, good_starts_nil i⟩
  | cons t ts ih =>
    unfold start_tests
    simp only []
    by_cases hr : (t.start h.seq_errors_total).1 < 0
    · right
      rw [if_pos hr]
      exact ⟨_, [], 0, _, rfl, by simp, hr, by simp, good_starts_nil i⟩
    · rw [if_neg hr]
      have hr0 : 0 ≤ (t.start h.seq_errors_total).1 := by omega
      rcases ih (i + 1) ⟨(t.start h.seq_errors_total).2, h.pipecmd,
          h.trace ++ [.start i (t.start h.seq_errors_total).1]⟩ with
        ⟨h1, evs, e1, e2, e3, e4⟩ | ⟨h1, evs, k, r, e1, e2, e3, e4, e5⟩
      · left
        exact ⟨h1, _ :: evs, e1, by simpa using e2, e3, good_starts_cons evs i _ _ hr0 e4⟩
      · right
        refine ⟨h1, _ :: evs, k + 1, r, e1, ?_, e3, by simp; omega,
          good_starts_cons evs i _ _ hr0 e5⟩
        rw [e2]
        simp [Nat.add_assoc, Nat.add_comm 1 k]

theorem ev_run_trace (oa : Bool) (od : Int) (es : List reactor_event) (h : harness) :
    (ev_run oa od es h).1.trace = h.trace := by
  induction es generalizing h with
  | nil => rfl
  | cons e es ih =>
    have hd : (dispatch oa od h e).1.trace = h.trace := by
      cases e <;> rfl
    unfold ev_run
    split_ifs
    · exact hd
    · rw [ih, hd]

theorem all_closes_nil (i : Nat) : all_closes [] i 0 := by
  simp [all_closes, start_ids, close_ids, create_ids]

theorem all_closes_cons (evs : List main_ev) (i k : Nat) (r : Int)
    (h : all_closes evs (i + 1) k) : all_closes (.close i r :: evs) i (k + 1) := by
  obtain ⟨h1, h2, h3, h4⟩ := h
  refine ⟨?_, ?_, ?_, ?_⟩
  · have : close_ids (main_ev.close i r :: evs) = i :: close_ids evs := rfl
    rw [this, h1]; rfl
  · have : start_ids (main_ev.close i r :: evs) = start_ids evs := rfl
    rw [this, h2]
  · simp [h3]
  · have : create_ids (main_ev.close i r :: evs) = create_ids evs := rfl
    rw [this, h4]

/-- The close loop: `close` is called on every test, and `test_exit_status` ends
non-zero exactly when it started non-zero or some `close` returned non-zero. -/
theorem close_tests_spec (ts : List test) (i : Nat) (h : harness) (st : Nat) :
    ∃ evs, (close_tests ts i h st).1.trace = h.trace ++ evs ∧ all_closes evs i ts.length ∧
      ((close_tests ts i h st).2 ≠ 0 ↔ (st ≠ 0 ∨ ∃ j r, main_ev.close j r ∈ evs ∧ r ≠ 0)) := by
  induction ts generalizing i h st with
  | nil => exact ⟨[], by simp [close_tests], all_closes_nil i, by simp [close_tests]⟩
  | cons t ts ih =>
    unfold close_tests
    simp only []
    obtain ⟨evs, e1, e2, e3⟩ := ih (i + 1)
      ⟨(t.close h.seq_errors_total).2, h.pipecmd,
        h.trace ++ [.close i (t.close h.seq_errors_total).1]⟩
      (if (t.close h.seq_errors_total).1 ≠ 0 then 1 else st)
    refine ⟨_ :: evs, by simpa using e1, all_closes_cons evs i _ _ e2, ?_⟩
    rw [e3]
    by_cases hr : (t.close h.seq_errors_total).1 = 0
    · simp only [hr, ne_eq, not_true_eq_false, if_false, List.mem_cons]
      constructor
      · rintro (h1 | ⟨j, r, h1, h2⟩)
        · exact Or.inl h1
        · exact Or.inr ⟨j, r, Or.inr h1, h2⟩
      · rintro (h1 | ⟨j, r, h1 | h1, h2⟩)
        · exact Or.inl h1
        · cases h1; exact absurd rfl h2
        · exact Or.inr ⟨j, r, h1, h2⟩
    · simp only [hr, ne_eq, not_false_eq_true, if_true, List.mem_cons]
      constructor
      · intro _
        exact Or.inr ⟨i, _, Or.inl rfl, hr⟩
      · intro _
        exact Or.inl (by decide)

/-! ### The shape of a run of `main` -/

/-- The run exits with 1 during setup when the options are rejected, the device
name is empty, or the loop over the clauses exits; only create calls and stores
into `tests[]` were made. -/
theorem main_setup_exit (a : args)
    (h : a.opts_ok = false ∨ cstr (configure a).device = [] ∨
      ∃ e, build_tests a.clauses 0 [] [] = .error e) :
    (main a).status = .exited 1 ∧ setup_only (main a).trace ∧
    ((main a).trace = [] ∨ ∃ evs, build_tests a.clauses 0 [] [] = .error (1, evs) ∧
      (main a).trace = evs) := by
  unfold main
  by_cases h1 : a.opts_ok = false
  · rw [if_pos h1]
    exact ⟨rfl, setup_only_nil, Or.inl rfl⟩
  · rw [if_neg h1]
    by_cases h2 : cstr (configure a).device = []
    · rw [if_pos h2]
      exact ⟨rfl, setup_only_nil, Or.inl rfl⟩
    · rw [if_neg h2]
      rcases h with h | h | ⟨e, he⟩
      · exact absurd h h1
      · exact absurd h h2
      · rcases build_tests_spec a.clauses 0 [] [] (by simp) with
          ⟨evs, k, j, e1, e2, -⟩ | ⟨ts1, evs, e1, -⟩
        · rw [e1]
          rw [List.nil_append]
          exact ⟨rfl, e2, Or.inr ⟨evs, rfl, rfl⟩⟩
        · rw [e1] at he; cases he

/-- The part of `main` from `ev_run` on: either the reactor is still running,
or every test is closed and the exit status is 2 or 0. -/
theorem run_and_close_spec (a : args) (ts : List test) (h : harness) :
    ((run_and_close a ts h).status = .running ∧
      (run_and_close a ts h).trace = h.trace ++ [.ev_run]) ∨
    (∃ cl, (run_and_close a ts h).trace = h.trace ++ (.ev_run :: cl) ∧
      all_closes cl 0 ts.length ∧
      (((run_and_close a ts h).seq_errors_total ≠ 0 ∨ ∃ j r, main_ev.close j r ∈ cl ∧ r ≠ 0) →
        (run_and_close a ts h).status = .exited 2) ∧
      (¬ ((run_and_close a ts h).seq_errors_total ≠ 0 ∨
          ∃ j r, main_ev.close j r ∈ cl ∧ r ≠ 0) →
        (run_and_close a ts h).status = .exited 0)) := by
  have ht := ev_run_trace a.opt_assert a.opt_duration a.events
    ⟨h.seq_errors_total, h.pipecmd, h.trace ++ [.ev_run]⟩
  simp only [run_and_close]
  generalize ev_run a.opt_assert a.opt_duration a.events
    ⟨h.seq_errors_total, h.pipecmd, h.trace ++ [.ev_run]⟩ = R at ht ⊢
  simp only [] at ht
  by_cases hrun : R.2 = true
  · right
    rw [if_pos hrun]
    obtain ⟨cl, c1, c2, c3⟩ := close_tests_spec ts 0 R.1 0
    rw [ht] at c1
    generalize close_tests ts 0 R.1 0 = C at c1 c3 ⊢
    refine ⟨cl, by simpa using c1, c2, ?_, ?_⟩
    · intro hq
      simp only [] at hq ⊢
      have : (C.1.seq_errors_total ≠ 0 ∨ C.2 ≠ 0) := by
        rcases hq with hq | hq
        · exact Or.inl hq
        · exact Or.inr (c3.2 (Or.inr hq))
      rw [if_pos this]
    · intro hq
      simp only [] at hq ⊢
      have : ¬ (C.1.seq_errors_total ≠ 0 ∨ C.2 ≠ 0) := by
        intro hh
        apply hq
        rcases hh with hh | hh
        · exact Or.inl hh
        · rcases c3.1 hh with h5 | h5
          · exact absurd rfl h5
          · exact Or.inr h5
      rw [if_neg this]
  · left
    rw [if_neg hrun]
    exact ⟨rfl, ht⟩

/-- The four ways a run of `main` can end, with the shape of the trace in each:
exit during setup, exit after a failed `start`, reactor still running, or
shutdown after the reactor returned. -/
theorem main_cases (a : args) :
    ((main a).status = .exited 1 ∧ setup_only (main a).trace) ∨
    (∃ cr st k r, (main a).status = .exited 1 ∧
      (main a).trace = cr ++ (st ++ [.start k r]) ∧ r < 0 ∧
      setup_only cr ∧ good_starts st 0 k) ∨
    (∃ cr st n, (main a).status = .running ∧ (main a).trace = cr ++ (st ++ [.ev_run]) ∧
      setup_only cr ∧ good_starts st 0 n) ∨
    (∃ cr st cl n, (main a).trace = cr ++ (st ++ (.ev_run :: cl)) ∧
      setup_only cr ∧ good_starts st 0 n ∧ all_closes cl 0 n ∧
      (((main a).seq_errors_total ≠ 0 ∨ ∃ j r, main_ev.close j r ∈ cl ∧ r ≠ 0) →
        (main a).status = .exited 2) ∧
      (¬ ((main a).seq_errors_total ≠ 0 ∨ ∃ j r, main_ev.close j r ∈ cl ∧ r ≠ 0) →
        (main a).status = .exited 0)) := by
  by_cases hs : a.opts_ok = false ∨ cstr (configure a).device = [] ∨
      ∃ e, build_tests a.clauses 0 [] [] = .error e
  · left
    exact ⟨(main_setup_exit a hs).1, (main_setup_exit a hs).2.1⟩
  · simp only [not_or, not_exists] at hs
    obtain ⟨h1, h2, h3⟩ := hs
    unfold main
    rw [if_neg h1, if_neg h2]
    rcases build_tests_spec a.clauses 0 [] [] (by simp) with
      ⟨evs, k, j, e1, -⟩ | ⟨ts1, cr, e1, hcr, -⟩
    · exact absurd e1 (h3 _)
    · rw [e1]
      simp only [List.nil_append]
      by_cases h0 : ts1.length = 0
      · left
        rw [if_pos h0]
        exact ⟨rfl, hcr⟩
      · rw [if_neg h0]
        rcases start_tests_spec ts1 0 ⟨0, List.replicate PIPECMD_SIZE 0, cr⟩ with
          ⟨h4, st, s1, s2, -, s3⟩ | ⟨h4, st, k, r, s1, s2, s3, -, s4⟩
        · rw [s1]
          simp only [] at s2 ⊢
          right; right
          rcases run_and_close_spec a ts1 h4 with ⟨r1, r2⟩ | ⟨cl, r1, r2, r3, r4⟩
          · left
            exact ⟨cr, st, ts1.length, r1, by rw [r2, s2]; simp, hcr, s3⟩
          · right
            exact ⟨cr, st, cl, ts1.length, by rw [r1, s2]; simp, hcr, s3, r2, r3, r4⟩
        · rw [s1]
          right; left
          exact ⟨cr, st, k, r, rfl, by simpa using s2, s3, hcr, by simpa using s4⟩

theorem start_mem_ids (evs : List main_ev) (i : Nat) (r : Int) (h : main_ev.start i r ∈ evs) :
    i ∈ start_ids evs := by
  simp only [start_ids, List.mem_filterMap]
  exact ⟨_, h, rfl⟩

theorem close_mem_ids (evs : List main_ev) (i : Nat) (r : Int) (h : main_ev.close i r ∈ evs) :
    i ∈ close_ids evs := by
  simp only [close_ids, List.mem_filterMap]
  exact ⟨_, h, rfl⟩

theorem setup_only_no_start (evs : List main_ev) (h : setup_only evs) (i : Nat) (r : Int) :
    main_ev.start i r ∉ evs := by
  intro hm
  have := start_mem_ids evs i r hm
  rw [(setup_only_facts evs h).1] at this
  cases this

theorem setup_only_no_close (evs : List main_ev) (h : setup_only evs) (i : Nat) (r : Int) :
    main_ev.close i r ∉ evs := by
  intro hm
  have := close_mem_ids evs i r hm
  rw [(setup_only_facts evs h).2.1] at this
  cases this

theorem good_starts_no_close (evs : List main_ev) (i k : Nat) (h : good_starts evs i k)
    (j : Nat) (r : Int) : main_ev.close j r ∉ evs := by
  intro hm
  have := close_mem_ids evs j r hm
  rw [h.2.1] at this
  cases this

theorem all_closes_no_start (evs : List main_ev) (i k : Nat) (h : all_closes evs i k)
    (j : Nat) (r : Int) : main_ev.start j r ∉ evs := by
  intro hm
  have := start_mem_ids evs j r hm
  rw [h.2.1] at this
  cases this

/-! ### Claims about `main` -/

/-- Claim C2 (exit status after shutdown). For every run of `main` in which
`ev_run` was called and the process exited with status `code` (the reactor
returned, so the run reached the shutdown phase): `code` is 2 exactly when
`seq_errors_total` is positive or some `close` returned non-zero, and 0 exactly
when neither holds. -/
theorem exit_status_after_shutdown (a : args) (code : Nat)
    (hrun : main_ev.ev_run ∈ (main a).trace) (hex : (main a).status = .exited code) :
    (code = 2 ↔ ((main a).seq_errors_total > 0 ∨
      ∃ i r, main_ev.close i r ∈ (main a).trace ∧ r ≠ 0)) ∧
    (code = 0 ↔ ¬ ((main a).seq_errors_total > 0 ∨
      ∃ i r, main_ev.close i r ∈ (main a).trace ∧ r ≠ 0)) := by
  rcases main_cases a with ⟨-, h2⟩ | ⟨cr, st, k, r, -, h2, -, h4, h5⟩ | ⟨cr, st, n, h1, -⟩ |
    ⟨cr, st, cl, n, h1, h2, h3, h4, h5, h6⟩
  · exact absurd hrun (setup_only_facts _ h2).2.2
  · rw [h2] at hrun
    simp only [List.mem_append, List.mem_singleton] at hrun
    rcases hrun with h | h | h
    · exact absurd h (setup_only_facts _ h4).2.2
    · exact absurd h h5.2.2.1
    · cases h
  · rw [h1] at hex; cases hex
  · have hcl : (∃ i r, main_ev.close i r ∈ (main a).trace ∧ r ≠ 0) ↔
        ∃ j r, main_ev.close j r ∈ cl ∧ r ≠ 0 := by
      constructor
      · rintro ⟨i, r, hm, hr⟩
        rw [h1] at hm
        simp only [List.mem_append, List.mem_cons] at hm
        rcases hm with hm | hm | hm | hm
        · exact absurd hm (setup_only_no_close _ h2 i r)
        · exact absurd hm (good_starts_no_close _ _ _ h3 i r)
        · cases hm
        · exact ⟨i, r, hm, hr⟩
      · rintro ⟨i, r, hm, hr⟩
        refine ⟨i, r, ?_, hr⟩
        rw [h1]
        simp [hm]
    have hpos : (main a).seq_errors_total > 0 ↔ (main a).seq_errors_total ≠ 0 :=
      Nat.pos_iff_ne_zero
    rw [hcl, hpos]
    by_cases hq : (main a).seq_errors_total ≠ 0 ∨ ∃ j r, main_ev.close j r ∈ cl ∧ r ≠ 0
    · have := h5 hq
      rw [hex] at this
      cases this
      simp [hq]
    · have := h6 hq
      rw [hex] at this
      cases this
      simp [hq]

/-- Witness for C2: two tests, the second reporting failure on close, the line
q on stdin; the run exits with 2. -/
theorem exit_status_after_shutdown_witness :
    (main args_two_tests).status = .exited 2 ∧
    ((2 : Nat) = 2 ↔ ((main args_two_tests).seq_errors_total > 0 ∨
      ∃ i r, main_ev.close i r ∈ (main args_two_tests).trace ∧ r ≠ 0)) :=
  ⟨by decide, (exit_status_after_shutdown args_two_tests 2 (by decide) (by decide)).1⟩

/-- Claim C7 (close after shutdown). For every run of `main` in which `ev_run`
was called and the process exited (the reactor returned, whatever event stopped
it, and whatever the `close` calls return): for some `n`, `start` was called on
the tests 0, .., n-1 in this order, `close` was called on the tests 0, .., n-1
in this same order, each exactly once, all `start` calls come before `ev_run`
and all `close` calls after it. -/
theorem every_started_test_closed_in_order (a : args) (code : Nat)
    (hrun : main_ev.ev_run ∈ (main a).trace) (hex : (main a).status = .exited code) :
    ∃ n, start_ids (main a).trace = List.range n ∧ close_ids (main a).trace = List.range n ∧
      ∃ pre post, (main a).trace = pre ++ main_ev.ev_run :: post ∧
        close_ids pre = [] ∧ start_ids post = [] := by
  rcases main_cases a with ⟨-, h2⟩ | ⟨cr, st, k, r, -, h2, -, h4, h5⟩ | ⟨cr, st, n, h1, -⟩ |
    ⟨cr, st, cl, n, h1, h2, h3, h4, -, -⟩
  · exact absurd hrun (setup_only_facts _ h2).2.2
  · rw [h2] at hrun
    simp only [List.mem_append, List.mem_singleton] at hrun
    rcases hrun with h | h | h
    · exact absurd h (setup_only_facts _ h4).2.2
    · exact absurd h h5.2.2.1
    · cases h
  · rw [h1] at hex; cases hex
  · obtain ⟨c1, c2, -⟩ := setup_only_facts _ h2
    obtain ⟨s1, s2, -, -, -⟩ := h3
    obtain ⟨k1, k2, -, -⟩ := h4
    have e1 : start_ids (main_ev.ev_run :: cl) = start_ids cl := rfl
    have e2 : close_ids (main_ev.ev_run :: cl) = close_ids cl := rfl
    refine ⟨n, ?_, ?_, cr ++ st, cl, by rw [h1]; simp, ?_, k2⟩
    · rw [h1, start_ids_append, start_ids_append, e1, c1, s1, k2, List.range_eq_range']
      simp
    · rw [h1, close_ids_append, close_ids_append, e2, c2, s2, k1, List.range_eq_range']
      simp
    · rw [close_ids_append, c2, s2]; rfl

/-- Witness for C7: two tests, stopped by SIGINT. -/
theorem every_started_test_closed_in_order_witness :
    ∃ n, start_ids (main args_sigint).trace = List.range n ∧
      close_ids (main args_sigint).trace = List.range n ∧
      ∃ pre post, (main args_sigint).trace = pre ++ main_ev.ev_run :: post ∧
        close_ids pre = [] ∧ start_ids post = [] :=
  every_started_test_closed_in_order args_sigint 0 (by decide) (by decide)

/-- Claim C10 (failing start). If in a run of `main` some `start` returned a
negative value, then the process exits with status 1; that call is the last
call of the run and every earlier `start` returned a non-negative value; `start`
was called on the tests 0, .., i in this order and on no later test; `close` was
called on no test and `ev_run` was not called. -/
theorem failing_start_exits_without_rollback (a : args) (i : Nat) (r : Int)
    (hmem : main_ev.start i r ∈ (main a).trace) (hr : r < 0) :
    (main a).status = .exited 1 ∧
    (∃ pre, (main a).trace = pre ++ [main_ev.start i r] ∧
      ∀ j r1, main_ev.start j r1 ∈ pre → 0 ≤ r1) ∧
    start_ids (main a).trace = List.range (i + 1) ∧
    close_ids (main a).trace = [] ∧
    main_ev.ev_run ∉ (main a).trace := by
  rcases main_cases a with ⟨-, h2⟩ | ⟨cr, st, k, r0, h1, h2, h3, h4, h5⟩ | ⟨cr, st, n, -, h2, h4, h5⟩ |
    ⟨cr, st, cl, n, h1, h2, h3, h4, -, -⟩
  · exact absurd hmem (setup_only_no_start _ h2 i r)
  · have hlast : i = k ∧ r = r0 := by
      rw [h2] at hmem
      simp only [List.mem_append, List.mem_singleton] at hmem
      rcases hmem with h | h | h
      · exact absurd h (setup_only_no_start _ h4 i r)
      · have := h5.2.2.2.2 i r h; omega
      · cases h; exact ⟨rfl, rfl⟩
    obtain ⟨rfl, rfl⟩ := hlast
    obtain ⟨c1, c2, c3⟩ := setup_only_facts _ h4
    obtain ⟨s1, s2, s3, -, s5⟩ := h5
    have e1 : start_ids [main_ev.start i r] = [i] := rfl
    have e2 : close_ids [main_ev.start i r] = [] := rfl
    refine ⟨h1, ⟨cr ++ st, by rw [h2]; simp, ?_⟩, ?_, ?_, ?_⟩
    · intro j r1 hj
      rcases List.mem_append.1 hj with hj | hj
      · exact absurd hj (setup_only_no_start _ h4 j r1)
      · exact s5 j r1 hj
    · rw [h2, start_ids_append, start_ids_append, e1, c1, s1, List.range_succ,
        List.range_eq_range']
      simp
    · rw [h2, close_ids_append, close_ids_append, e2, c2, s2]; rfl
    · rw [h2]
      simp [c3, s3]
  · exfalso
    rw [h2] at hmem
    simp only [List.mem_append, List.mem_singleton] at hmem
    rcases hmem with h | h | h
    · exact absurd h (setup_only_no_start _ h4 i r)
    · have := h5.2.2.2.2 i r h; omega
    · cases h
  · exfalso
    rw [h1] at hmem
    simp only [List.mem_append, List.mem_cons] at hmem
    rcases hmem with h | h | h | h
    · exact absurd h (setup_only_no_start _ h2 i r)
    · have := h3.2.2.2.2 i r h; omega
    · cases h
    · exact absurd h (all_closes_no_start _ _ _ h4 i r)

/-- Witness for C10: the second of two tests fails to start. -/
theorem failing_start_exits_without_rollback_witness :
    (main args_bad_start).status = .exited 1 ∧
    start_ids (main args_bad_start).trace = List.range 2 ∧
    close_ids (main args_bad_start).trace = [] :=
  have h := failing_start_exits_without_rollback args_bad_start 1 (-1) (by decide) (by decide)
  ⟨h.1, h.2.2.1, h.2.2.2.1⟩

/-- Claim C3 (setup errors). If the configured device name is empty
(`config.device[0]` is NUL), or a
TEST clause names an unknown test, or the create function of a clause returns
NULL, or more than `MAX_TESTS` clauses are given, then `main` exits with status
1, `start` is not called on any test and `ev_run` is not called. -/
theorem setup_error_exits_before_start (a : args)
    (h : cstr (configure a).device = [] ∨ (∃ c ∈ a.clauses, known_test c.name = false) ∨
      (∃ c ∈ a.clauses, c.create = none) ∨ MAX_TESTS < a.clauses.length) :
    (main a).status = .exited 1 ∧ (∀ i r, main_ev.start i r ∉ (main a).trace) ∧
    main_ev.ev_run ∉ (main a).trace := by
  have hpre : a.opts_ok = false ∨ cstr (configure a).device = [] ∨
      ∃ e, build_tests a.clauses 0 [] [] = .error e := by
    rcases build_tests_spec a.clauses 0 [] [] (by simp) with
      ⟨evs, k, j, e1, -⟩ | ⟨ts1, evs, -, -, -, -, hlen, hle, hall⟩
    · exact Or.inr (Or.inr ⟨_, e1⟩)
    · rcases h with h | ⟨c, hc, hk⟩ | ⟨c, hc, hn⟩ | h
      · exact Or.inr (Or.inl h)
      · rw [(hall c hc).1] at hk; cases hk
      · exact absurd hn (hall c hc).2.2
      · simp only [List.length_nil, Nat.zero_add] at hlen
        omega
  obtain ⟨h1, h2, -⟩ := main_setup_exit a hpre
  exact ⟨h1, fun i r => setup_only_no_start _ h2 i r, (setup_only_facts _ h2).2.2⟩

/-- Witness for C3: the create function returns NULL for the only clause. -/
theorem setup_error_exits_before_start_witness :
    (main args_missing_device).status = .exited 1 ∧
    main_ev.ev_run ∉ (main args_missing_device).trace :=
  have h := setup_error_exits_before_start args_missing_device
    (Or.inr (Or.inr (Or.inl ⟨⟨"play", true, none⟩, by simp [args_missing_device], rfl⟩)))
  ⟨h.1, h.2.2⟩

theorem clause_test_valid (c : clause) (n : Nat) (tr : List main_ev)
    (h : known_test c.name = true ∧ c.opts_ok = true ∧ c.create ≠ none) :
    ∃ t v, clause_test c n tr = .ok (some t, tr ++ [.create n v]) := by
  rcases clause_test_spec c n tr with ⟨tr1, -, -, e3, -⟩ | ⟨t, v, e1, -⟩ | ⟨-, e2⟩
  · rcases e3 with e3 | e3
    · rw [h.2.1] at e3; cases e3
    · exact absurd e3 h.2.2
  · exact ⟨t, v, e1⟩
  · rw [h.1] at e2; cases e2

/-- With three valid clauses whose create calls succeed, the loop exits only
after the third create call. -/
theorem build_tests_three (c0 c1 c2 : clause) (rest : List clause)
    (h : ∀ c ∈ [c0, c1, c2], known_test c.name = true ∧ c.opts_ok = true ∧ c.create ≠ none) :
    ∃ v0 v1 v2, build_tests (c0 :: c1 :: c2 :: rest) 0 [] [] =
      .error (1, [.create 0 v0, .register 0, .create 1 v1, .register 1, .create 2 v2]) := by
  obtain ⟨t0, v0, e0⟩ := clause_test_valid c0 0 [] (h c0 (by simp))
  obtain ⟨t1, v1, e1⟩ := clause_test_valid c1 1 [.create 0 v0, .register 0] (h c1 (by simp))
  obtain ⟨t2, v2, e2⟩ := clause_test_valid c2 2
    [.create 0 v0, .register 0, .create 1 v1, .register 1] (h c2 (by simp))
  refine ⟨v0, v1, v2, ?_⟩
  simp only [List.nil_append, List.singleton_append, List.cons_append] at e0 e1 e2
  simp [build_tests, e0, e1, e2, MAX_TESTS]

/-- Claim C6, amended (limit of two tests). For every command line with three
or more TEST clauses `main` exits with 1 without calling `start` or `ev_run`;
create functions are called for at most the first three clauses, in order; at
most `MAX_TESTS` descriptors are stored into `tests[]`, at indices 0 and 1; and
when the first three clauses are valid and their create calls succeed, the
create function of the third clause is called before the run is rejected (its
descriptor exists but is not stored). -/
theorem third_clause_rejected_after_create (a : args) (h : 3 ≤ a.clauses.length) :
    (main a).status = .exited 1 ∧ (∀ i r, main_ev.start i r ∉ (main a).trace) ∧
    main_ev.ev_run ∉ (main a).trace ∧
    (∃ k, k ≤ 3 ∧ create_ids (main a).trace = List.range k) ∧
    (∃ j, j ≤ MAX_TESTS ∧ register_ids (main a).trace = List.range j) ∧
    (∀ c0 c1 c2 rest, a.clauses = c0 :: c1 :: c2 :: rest → a.opts_ok = true →
      cstr (configure a).device ≠ [] →
      (∀ c ∈ [c0, c1, c2], known_test c.name = true ∧ c.opts_ok = true ∧ c.create ≠ none) →
      create_ids (main a).trace = [0, 1, 2] ∧ register_ids (main a).trace = [0, 1]) := by
  have hb : ∃ evs k j, build_tests a.clauses 0 [] [] = .error (1, [] ++ evs) ∧ setup_only evs ∧
      create_ids evs = List.range' 0 k ∧
      register_ids evs = List.range' ([] : List test).length j ∧ k ≤ a.clauses.length ∧
      ([] : List test).length + k ≤ MAX_TESTS + 1 ∧ ([] : List test).length + j ≤ MAX_TESTS := by
    rcases build_tests_spec a.clauses 0 [] [] (by simp) with
      hl | ⟨ts1, evs, -, -, -, -, hlen, hle, -⟩
    · exact hl
    · simp only [List.length_nil, Nat.zero_add, MAX_TESTS] at hlen hle
      omega
  obtain ⟨evs, k, j, b1, b2, b3, b3r, b4, b5, b5r⟩ := hb
  simp only [List.nil_append, List.length_nil, Nat.zero_add] at b1 b3r b5 b5r
  obtain ⟨h1, h2, h3⟩ := main_setup_exit a (Or.inr (Or.inr ⟨_, b1⟩))
  refine ⟨h1, fun i r => setup_only_no_start _ h2 i r, (setup_only_facts _ h2).2.2,
    ?_, ?_, ?_⟩
  · rcases h3 with h3 | ⟨evs2, e1, e2⟩
    · exact ⟨0, by omega, by rw [h3]; rfl⟩
    · rw [b1] at e1
      simp only [Except.error.injEq, Prod.mk.injEq, true_and] at e1
      subst e1
      exact ⟨k, by simpa [MAX_TESTS] using b5, by rw [e2, b3, List.range_eq_range']⟩
  · rcases h3 with h3 | ⟨evs2, e1, e2⟩
    · exact ⟨0, by omega, by rw [h3]; rfl⟩
    · rw [b1] at e1
      simp only [Except.error.injEq, Prod.mk.injEq, true_and] at e1
      subst e1
      exact ⟨j, b5r, by rw [e2, b3r, List.range_eq_range']⟩
  · intro c0 c1 c2 rest hcl hopts hdev hvalid
    obtain ⟨v0, v1, v2, e⟩ := build_tests_three c0 c1 c2 rest hvalid
    have hm : (main a).trace =
        [.create 0 v0, .register 0, .create 1 v1, .register 1, .create 2 v2] := by
      unfold main
      rw [if_neg (by simp [hopts]), if_neg hdev, hcl, e]
    rw [hm]
    exact ⟨rfl, rfl⟩

/-- Witness for C6 (amended): three valid clauses. -/
theorem third_clause_rejected_after_create_witness :
    (main args_three_tests).status = .exited 1 ∧
    create_ids (main args_three_tests).trace = [0, 1, 2] ∧
    register_ids (main args_three_tests).trace = [0, 1] :=
  have h := third_clause_rejected_after_create args_three_tests (by decide)
  ⟨h.1, h.2.2.2.2.2 _ _ _ _ rfl rfl (by decide) (by
    intro c hc
    simp only [List.mem_cons, List.mem_singleton, List.not_mem_nil, or_false] at hc
    rcases hc with rfl | rfl | rfl <;> exact ⟨by decide, rfl, by simp⟩)⟩

/-- Claim C6 as stated fails: on a command line with three valid TEST clauses
the process exits with 1, but the create function of the third clause has been
called before. -/
theorem third_create_is_called :
    3 ≤ args_three_tests.clauses.length ∧
    (∀ c ∈ args_three_tests.clauses, known_test c.name = true ∧ c.opts_ok = true) ∧
    (main args_three_tests).status = .exited 1 ∧
    main_ev.create 2 .play ∈ (main args_three_tests).trace := by
  decide

/-! ### The software parameters committed by `alsa_device_open` -/

theorem run_cons_ok (f : St → Except St St) (fs : List (St → Except St St)) (s s2 : St)
    (h : run (f :: fs) s = .ok s2) : ∃ s1, f s = .ok s1 ∧ run fs s1 = .ok s2 := by
  rw [run_cons] at h
  cases h1 : f s with
  | error e => rw [h1] at h; cases h
  | ok s1 => rw [h1] at h; exact ⟨s1, rfl, h⟩

theorem run_append_ok (a b : List (St → Except St St)) (s s2 : St)
    (h : run (a ++ b) s = .ok s2) : ∃ s1, run a s = .ok s1 ∧ run b s1 = .ok s2 := by
  rw [run_append] at h
  cases h1 : run a s with
  | error e => rw [h1] at h; cases h
  | ok s1 => rw [h1] at h; exact ⟨s1, rfl, h⟩

theorem pres_ok {α : Type} (φ : St → α) (a : List (St → Except St St))
    (ha : ∀ f ∈ a, Pres φ f) (s s1 : St) (h : run a s = .ok s1) : φ s1 = φ s := by
  have := pres_run φ a ha s
  rwa [h] at this

@[simp]
theorem pres_sws_pcm_open (env : Alsa) (d : Dir) : Pres St.sws (pcm_open_step env d) := by
  intro s; unfold pcm_open_step
  split_ifs <;> cases d <;>
    simp [final, St.sws, St.log, St.set_handle, List.filter_append, Ev.is_sw]

@[simp]
theorem pres_sws_hw_params_malloc (env : Alsa) (d : Dir) :
    Pres St.sws (hw_params_malloc_step env d) := by
  intro s; unfold hw_params_malloc_step
  split_ifs <;> simp [final, St.sws, St.log, List.filter_append, Ev.is_sw]

@[simp]
theorem pres_sws_check (env : Alsa) (d : Dir) (k : Step) : Pres St.sws (check env d k) := by
  intro s; unfold check
  split_ifs <;> rfl

@[simp]
theorem pres_sws_set_rate_near (env : Alsa) (d : Dir) :
    Pres St.sws (set_rate_near_step env d) := by
  intro s; unfold set_rate_near_step
  split_ifs <;> rfl

@[simp]
theorem pres_sws_period_check (d : Dir) : Pres St.sws (period_check d) := by
  intro s; unfold period_check
  split_ifs <;> simp [final, St.sws, St.log, List.filter_append, Ev.is_sw]

@[simp]
theorem pres_sws_compute_buffer_size (pc : Int) : Pres St.sws (compute_buffer_size pc) :=
  fun _ => rfl

@[simp]
theorem pres_sws_set_buffer_size_near (env : Alsa) (d : Dir) :
    Pres St.sws (set_buffer_size_near_step env d) := by
  intro s; unfold set_buffer_size_near_step
  split_ifs <;> rfl

@[simp]
theorem pres_sws_sw_params_malloc (env : Alsa) (d : Dir) :
    Pres St.sws (sw_params_malloc_step env d) := by
  intro s; unfold sw_params_malloc_step
  split_ifs <;> simp [final, St.sws, St.log, List.filter_append, Ev.is_sw]

@[simp]
theorem pres_sws_release : Pres St.sws release := by
  intro s
  simp only [release, final, St.free_hw, St.free_sw]
  cases h1 : s.hw_params <;> cases h2 : s.sw_params <;>
    simp [St.sws, St.log, List.filter_append, Ev.is_sw, h1, h2]

theorem set_period_size_near_sws (env : Alsa) (d : Dir) (s s1 : St)
    (h : set_period_size_near_step env d s = .ok s1) :
    s1.sws = (env.period_near d s.period_size,
      s.trace.filter Ev.is_sw ++ [.period_near d s.period_size (env.period_near d s.period_size)]) := by
  unfold set_period_size_near_step at h
  split_ifs at h
  simp only [Except.ok.injEq] at h
  subst h
  simp [St.sws, St.log, List.filter_append, Ev.is_sw]

theorem set_avail_min_sws (env : Alsa) (d : Dir) (s s1 : St)
    (h : set_avail_min_step env d s = .ok s1) :
    s1.sws = (s.period_size, s.trace.filter Ev.is_sw ++ [.set_avail_min d s.period_size]) := by
  unfold set_avail_min_step at h
  split_ifs at h
  simp only [Except.ok.injEq] at h
  subst h
  simp [St.sws, St.log, List.filter_append, Ev.is_sw]

theorem set_start_threshold_sws (env : Alsa) (pc : Int) (d : Dir) (s s1 : St)
    (h : set_start_threshold_step env pc d s = .ok s1) :
    s1.sws = (s.period_size, s.trace.filter Ev.is_sw ++
      [.set_start_threshold d
        ((to_ulong (wrap_int (pc - 1)) * s.period_size) % 2 ^ ULONG_BITS)]) := by
  unfold set_start_threshold_step at h
  split_ifs at h
  simp only [Except.ok.injEq] at h
  subst h
  simp [St.sws, St.log, List.filter_append, Ev.is_sw]

theorem sw_params_sws (env : Alsa) (d : Dir) (s s1 : St)
    (h : sw_params_step env d s = .ok s1) :
    s1.sws = (s.period_size, s.trace.filter Ev.is_sw ++ [.sw_commit d]) := by
  unfold sw_params_step at h
  split_ifs at h
  simp only [Except.ok.injEq] at h
  subst h
  simp [St.sws, St.log, List.filter_append, Ev.is_sw]

/-- A block that falls through, up to the statement before `set_avail_min`: the
period negotiated is in `period_size`, and only the negotiation was recorded. -/
theorem block_head_sws (env : Alsa) (d : Dir) (a b tail : List (St → Except St St))
    (ha : ∀ f ∈ a, Pres St.sws f) (hb : ∀ f ∈ b, Pres St.sws f) (s s3 : St)
    (h : run (a ++ (set_period_size_near_step env d :: (b ++ tail))) s = .ok s3) :
    ∃ s2, run tail s2 = .ok s3 ∧
      s2.sws = (env.period_near d s.period_size, s.trace.filter Ev.is_sw ++
        [.period_near d s.period_size (env.period_near d s.period_size)]) := by
  obtain ⟨s1, e1, h⟩ := run_append_ok _ _ _ _ h
  have p1 := pres_ok St.sws a ha s s1 e1
  obtain ⟨s1b, e1b, h⟩ := run_cons_ok _ _ _ _ h
  have p1b := set_period_size_near_sws env d s1 s1b e1b
  obtain ⟨s2, e2, h⟩ := run_append_ok _ _ _ _ h
  have p2 := pres_ok St.sws b hb s1b s2 e2
  refine ⟨s2, h, ?_⟩
  simp only [St.sws, Prod.mk.injEq] at p1
  rw [p2, p1b, p1.1, p1.2]

/-- The negotiation and software-parameter actions of a capture block that falls through. -/
theorem capture_block_sws (env : Alsa) (pc : Int) (s s3 : St)
    (h : run (capture_block env pc) s = .ok s3) :
    s3.sws = (env.period_near .capture s.period_size,
      s.trace.filter Ev.is_sw ++ capture_sw_actions env s.period_size) := by
  have e : capture_block env pc = (capture_block env pc).take 7 ++
      (set_period_size_near_step env .capture :: (((capture_block env pc).drop 8).take 6 ++
        [set_avail_min_step env .capture, sw_params_step env .capture, release])) := rfl
  rw [e] at h
  obtain ⟨s2, h, p2⟩ := block_head_sws env .capture _ _ _ (by simp [capture_block])
    (by simp [capture_block]) s s3 h
  obtain ⟨s4, e4, h⟩ := run_cons_ok _ _ _ _ h
  have p4 := set_avail_min_sws env .capture s2 s4 e4
  obtain ⟨s5, e5, h⟩ := run_cons_ok _ _ _ _ h
  have p5 := sw_params_sws env .capture s4 s5 e5
  have p6 := pres_ok St.sws [release] (by simp) s5 s3 h
  simp only [St.sws, Prod.mk.injEq] at p2 p4 p5 p6 ⊢
  rw [p6.1, p6.2, p5.1, p5.2, p4.1, p4.2, p2.1, p2.2]
  simp [capture_sw_actions]

/-- The negotiation and software-parameter actions of a playback block that falls through. -/
theorem playback_block_sws (env : Alsa) (pc : Int) (s s3 : St)
    (h : run (playback_block env pc) s = .ok s3) :
    s3.sws = (env.period_near .playback s.period_size,
      s.trace.filter Ev.is_sw ++ playback_sw_actions env s.period_size
        ((to_ulong (wrap_int (pc - 1)) * env.period_near .playback s.period_size)
          % 2 ^ ULONG_BITS)) := by
  have e : playback_block env pc = (playback_block env pc).take 7 ++
      (set_period_size_near_step env .playback :: (((playback_block env pc).drop 8).take 6 ++
        [set_avail_min_step env .playback, set_start_threshold_step env pc .playback,
          sw_params_step env .playback, release])) := rfl
  rw [e] at h
  obtain ⟨s2, h, p2⟩ := block_head_sws env .playback _ _ _ (by simp [playback_block])
    (by simp [playback_block]) s s3 h
  obtain ⟨s4, e4, h⟩ := run_cons_ok _ _ _ _ h
  have p4 := set_avail_min_sws env .playback s2 s4 e4
  obtain ⟨s4b, e4b, h⟩ := run_cons_ok _ _ _ _ h
  have p4b := set_start_threshold_sws env pc .playback s4 s4b e4b
  obtain ⟨s5, e5, h⟩ := run_cons_ok _ _ _ _ h
  have p5 := sw_params_sws env .playback s4b s5 e5
  have p6 := pres_ok St.sws [release] (by simp) s5 s3 h
  simp only [St.sws, Prod.mk.injEq] at p2 p4 p4b p5 p6 ⊢
  rw [p6.1, p6.2, p5.1, p5.2, p4b.1, p4b.2, p4.1, p4.2, p2.1, p2.2]
  simp [playback_sw_actions]

theorem link_and_return_sws (env : Alsa) (wc wp : Bool) (s : St) :
    (link_and_return env wc wp s).trace.filter Ev.is_sw = s.trace.filter Ev.is_sw := by
  simp only [link_and_return]
  split_ifs <;> simp [St.log, List.filter_append, Ev.is_sw]

/-- The negotiation and software-parameter actions of a successful call, with
the start threshold as the code computes it. -/
theorem alsa_device_open_sws (env : Alsa) (config : alsa_config) (wc wp : Bool)
    (hret : (alsa_device_open env config wc wp).ret = 0) :
    (alsa_device_open env config wc wp).trace.filter Ev.is_sw =
      (if wc then capture_sw_actions env config.period else []) ++
      (if wp then
        playback_sw_actions env
          (if wc then env.period_near .capture config.period else config.period)
          ((to_ulong (wrap_int (to_int config.buffer_period_count - 1)) *
            env.period_near .playback
              (if wc then env.period_near .capture config.period else config.period))
            % 2 ^ ULONG_BITS)
      else []) := by
  simp only [alsa_device_open] at hret ⊢
  have hp0 : (init_state config).sws = (config.period, []) := rfl
  generalize init_state config = s0 at hret hp0 ⊢
  have hcap : ∀ s1, (if wc = true then run (capture_block env (to_int config.buffer_period_count)) s0
      else Except.ok s0) = .ok s1 →
      s1.sws = (if wc then env.period_near .capture config.period else config.period,
        if wc then capture_sw_actions env config.period else []) := by
    intro s1 h1
    simp only [St.sws, Prod.mk.injEq] at hp0
    cases wc with
    | false =>
      simp only [Bool.false_eq_true, if_false, Except.ok.injEq] at h1
      subst h1
      simp [St.sws, hp0]
    | true =>
      simp only [if_true] at h1
      have := capture_block_sws env _ s0 s1 h1
      simpa [hp0] using this
  cases h1 : (if wc = true then run (capture_block env (to_int config.buffer_period_count)) s0
      else Except.ok s0) with
  | error e => rw [h1] at hret; simp [open_failed_ret] at hret
  | ok s1 =>
    have q1 := hcap s1 h1
    rw [h1] at hret
    simp only [] at hret ⊢
    cases h2 : (if wp = true then run (playback_block env (to_int config.buffer_period_count)) s1
        else Except.ok s1) with
    | error e => rw [h2] at hret; simp [open_failed_ret] at hret
    | ok s2 =>
      simp only [link_and_return_sws]
      simp only [St.sws, Prod.mk.injEq] at q1
      cases wp with
      | false =>
        simp only [Bool.false_eq_true, if_false, Except.ok.injEq] at h2
        subst h2
        simp [q1.2]
      | true =>
        simp only [if_true] at h2
        have q2 := playback_block_sws env _ s1 s2 h2
        simp only [St.sws, Prod.mk.injEq] at q2
        rw [q2.2, q1.1, q1.2]
        simp

/-- The subtraction `period_count - 1` of line 199 gives the count minus one for
every count from 1 to 2^31: up to 2^31 - 1 the count is unchanged by the
conversion to `int`; at 2^31 the `int` is `INT_MIN` and the subtraction wraps to
`INT_MAX`, which is 2^31 - 1 again. -/
theorem period_count_pred (count : Nat) (h1 : 1 ≤ count) (h2 : count ≤ 2 ^ 31) :
    wrap_int (to_int count - 1) = ((count - 1 : Nat) : Int) := by
  rcases Nat.lt_or_ge count (2 ^ 31) with h | h
  · have e1 : count % 2 ^ 32 = count := Nat.mod_eq_of_lt (by omega)
    have e2 : to_int count = (count : Int) := by
      unfold to_int
      rw [e1, if_pos h]
    have e3 : ((count : Int) - 1) = ((count - 1 : Nat) : Int) := by omega
    have e4 : ((count - 1 : Nat) : Int) % 2 ^ 32 = ((count - 1 : Nat) : Int) := by
      apply Int.emod_eq_of_lt
      · omega
      · omega
    have e5 : (count - 1) % 2 ^ 32 = count - 1 := Nat.mod_eq_of_lt (by omega)
    rw [e2, e3]
    unfold wrap_int
    rw [e4, Int.toNat_natCast]
    unfold to_int
    rw [e5, if_pos (by omega)]
  · have e : count = 2 ^ 31 := by omega
    subst e
    decide

/-- The start threshold as the code computes it equals the product when the
period count is between 1 and 2^31 and the product fits `unsigned long`. -/
theorem start_threshold_exact (count period : Nat) (h1 : 1 ≤ count) (h2 : count ≤ 2 ^ 31)
    (h3 : (count - 1) * period < 2 ^ ULONG_BITS) :
    (to_ulong (wrap_int (to_int count - 1)) * period) % 2 ^ ULONG_BITS =
      (count - 1) * period := by
  have e3 : to_ulong ((count - 1 : Nat) : Int) = count - 1 := by
    unfold to_ulong ULONG_BITS
    have h4 : ((count - 1 : Nat) : Int) % 2 ^ 64 = ((count - 1 : Nat) : Int) := by
      apply Int.emod_eq_of_lt
      · omega
      · omega
    rw [h4, Int.toNat_natCast]
  rw [period_count_pred count h1 h2, e3]
  exact Nat.mod_eq_of_lt h3

/-- At a period count of 2^31 the `int` is `INT_MIN`, the subtraction wraps to
`INT_MAX` and the start threshold passed on the sample device (period 32) is
(2^31 - 1) * 32 = 68719476704. -/
theorem start_threshold_at_int_min :
    Ev.set_start_threshold .playback 68719476704 ∈
      (alsa_device_open env_32_64_128
        { config_37 with buffer_period_count := 2147483648 } false true).trace := by
  decide

/-- Claim C11, amended (software parameters). After every successful call, the
negotiation and software-parameter actions of the call are exactly: for
capture, when requested, the negotiation of the period, `avail_min` set to the
period negotiated for capture, and the commit; then for playback, when
requested, the negotiation of the period, `avail_min` set to the period
negotiated for playback, one start threshold, and the commit. No start
threshold is set on the capture stream. When the period count is between 1 and
2^31 and `(buffer_period_count - 1)` times the period negotiated for playback
in this call fits `unsigned long`, the start threshold is that product. -/
theorem sw_params_of_successful_open (env : Alsa) (config : alsa_config) (wc wp : Bool)
    (hret : (alsa_device_open env config wc wp).ret = 0) :
    (∃ thr : Nat,
      (alsa_device_open env config wc wp).trace.filter Ev.is_sw =
        (if wc then
          [Ev.period_near .capture config.period (env.period_near .capture config.period),
           Ev.set_avail_min .capture (env.period_near .capture config.period),
           Ev.sw_commit .capture]
        else []) ++
        (if wp then
          [Ev.period_near .playback
             (if wc then env.period_near .capture config.period else config.period)
             (env.period_near .playback
               (if wc then env.period_near .capture config.period else config.period)),
           Ev.set_avail_min .playback
             (env.period_near .playback
               (if wc then env.period_near .capture config.period else config.period)),
           Ev.set_start_threshold .playback thr,
           Ev.sw_commit .playback]
        else []) ∧
      (1 ≤ config.buffer_period_count → config.buffer_period_count ≤ 2 ^ 31 →
        (config.buffer_period_count - 1) *
          env.period_near .playback
            (if wc then env.period_near .capture config.period else config.period)
          < 2 ^ ULONG_BITS →
        thr = (config.buffer_period_count - 1) *
          env.period_near .playback
            (if wc then env.period_near .capture config.period else config.period))) ∧
    (∀ v, Ev.set_start_threshold .capture v ∉ (alsa_device_open env config wc wp).trace) := by
  have hmem : ∀ e : Ev, e.is_sw = true →
      (e ∈ (alsa_device_open env config wc wp).trace ↔
        e ∈ (alsa_device_open env config wc wp).trace.filter Ev.is_sw) := by
    intro e he; simp [List.mem_filter, he]
  have hs := alsa_device_open_sws env config wc wp hret
  refine ⟨⟨_, by rw [hs]; rfl, fun h1 h2 h3 => start_threshold_exact _ _ h1 h2 h3⟩, ?_⟩
  intro v
  rw [hmem (Ev.set_start_threshold .capture v) rfl, hs]
  cases wc <;> cases wp <;> simp [capture_sw_actions, playback_sw_actions]

/-- Witness for C11 (amended): capture and playback on the sample device,
request 37, four periods per buffer: the start threshold is 3 * 32 = 96. -/
theorem sw_params_of_successful_open_witness :
    (alsa_device_open env_32_64_128 config_37 true true).ret = 0 ∧
    (alsa_device_open env_32_64_128 config_37 true true).trace.filter Ev.is_sw =
      [Ev.period_near .capture 37 32, Ev.set_avail_min .capture 32, Ev.sw_commit .capture,
       Ev.period_near .playback 32 32, Ev.set_avail_min .playback 32,
       Ev.set_start_threshold .playback 96, Ev.sw_commit .playback] ∧
    (∀ v, Ev.set_start_threshold .capture v ∉
      (alsa_device_open env_32_64_128 config_37 true true).trace) := by
  have h := sw_params_of_successful_open env_32_64_128 config_37 true true (by decide)
  obtain ⟨⟨thr, hl, hv⟩, hc⟩ := h
  rw [hv (by decide) (by decide) (by decide)] at hl
  exact ⟨by decide, hl, hc⟩

/-- Claim C11 as stated fails: with a period count of 2^31 + 1, which is at
least 1, the call succeeds and the period negotiated for playback is 32, but
the start threshold passed is 2^64 - 2^36, not 2^31 times 32. -/
theorem start_threshold_wraps_for_huge_count :
    (alsa_device_open env_32_64_128 config_huge_count false true).ret = 0 ∧
    1 ≤ config_huge_count.buffer_period_count ∧
    Ev.period_near .playback 37 32 ∈
      (alsa_device_open env_32_64_128 config_huge_count false true).trace ∧
    Ev.set_start_threshold .playback 18446744004990074880 ∈
      (alsa_device_open env_32_64_128 config_huge_count false true).trace ∧
    (18446744004990074880 : Nat) ≠ (config_huge_count.buffer_period_count - 1) * 32 := by
  decide

/-! ### The parameter descriptors of `alsa_device_open` -/

/-- A segment that preserves `φ`, followed by more statements: either the
segment jumps to `open_failed`, or the rest runs from a state with the same `φ`. -/
theorem run_append_pres {α : Type} (φ : St → α) (a b : List (St → Except St St))
    (ha : ∀ f ∈ a, Pres φ f) (s : St) :
    (∃ s1, run (a ++ b) s = .error s1 ∧ φ s1 = φ s) ∨
    (∃ s1, run (a ++ b) s = run b s1 ∧ φ s1 = φ s) := by
  have hp := pres_run φ a ha s
  rw [run_append]
  cases h : run a s with
  | error s1 => left; rw [h] at hp; exact ⟨s1, rfl, hp⟩
  | ok s1 => right; rw [h] at hp; exact ⟨s1, rfl, hp⟩

@[simp]
theorem pres_descs_pcm_open (env : Alsa) (d : Dir) : Pres St.descs (pcm_open_step env d) := by
  intro s; unfold pcm_open_step
  split_ifs <;> cases d <;>
    simp [final, St.descs, St.log, St.set_handle, List.filter_append, Ev.is_desc]

@[simp]
theorem pres_descs_check (env : Alsa) (d : Dir) (k : Step) : Pres St.descs (check env d k) := by
  intro s; unfold check
  split_ifs <;> rfl

@[simp]
theorem pres_descs_set_rate_near (env : Alsa) (d : Dir) :
    Pres St.descs (set_rate_near_step env d) := by
  intro s; unfold set_rate_near_step
  split_ifs <;> rfl

@[simp]
theorem pres_descs_set_period_size_near (env : Alsa) (d : Dir) :
    Pres St.descs (set_period_size_near_step env d) := by
  intro s; unfold set_period_size_near_step
  split_ifs <;> simp [final, St.descs, St.log, List.filter_append, Ev.is_desc]

@[simp]
theorem pres_descs_period_check (d : Dir) : Pres St.descs (period_check d) := by
  intro s; unfold period_check
  split_ifs <;> simp [final, St.descs, St.log, List.filter_append, Ev.is_desc]

@[simp]
theorem pres_descs_compute_buffer_size (pc : Int) : Pres St.descs (compute_buffer_size pc) :=
  fun _ => rfl

@[simp]
theorem pres_descs_set_buffer_size_near (env : Alsa) (d : Dir) :
    Pres St.descs (set_buffer_size_near_step env d) := by
  intro s; unfold set_buffer_size_near_step
  split_ifs <;> rfl

@[simp]
theorem pres_descs_set_avail_min (env : Alsa) (d : Dir) :
    Pres St.descs (set_avail_min_step env d) := by
  intro s; unfold set_avail_min_step
  split_ifs <;> simp [final, St.descs, St.log, List.filter_append, Ev.is_desc]

@[simp]
theorem pres_descs_set_start_threshold (env : Alsa) (pc : Int) (d : Dir) :
    Pres St.descs (set_start_threshold_step env pc d) := by
  intro s; unfold set_start_threshold_step
  split_ifs <;> simp [final, St.descs, St.log, List.filter_append, Ev.is_desc]

@[simp]
theorem pres_descs_sw_params (env : Alsa) (d : Dir) : Pres St.descs (sw_params_step env d) := by
  intro s; unfold sw_params_step
  split_ifs <;> simp [final, St.descs, St.log, List.filter_append, Ev.is_desc]

/-- The allocation of the hardware descriptor: it fails and changes nothing, or
it fills the variable `hw_params`. -/
theorem hw_params_malloc_descs (env : Alsa) (d : Dir) (s : St) :
    (∃ s1, hw_params_malloc_step env d s = .error s1 ∧ s1.descs = s.descs) ∨
    (∃ s1, hw_params_malloc_step env d s = .ok s1 ∧
      s1.descs = (some d, s.sw_params, s.trace.filter Ev.is_desc ++ [.hw_malloc d])) := by
  unfold hw_params_malloc_step
  split_ifs
  · left; exact ⟨s, rfl, rfl⟩
  · right; exact ⟨_, rfl, by simp [St.descs, St.log, List.filter_append, Ev.is_desc]⟩

/-- The allocation of the software descriptor. -/
theorem sw_params_malloc_descs (env : Alsa) (d : Dir) (s : St) :
    (∃ s1, sw_params_malloc_step env d s = .error s1 ∧ s1.descs = s.descs) ∨
    (∃ s1, sw_params_malloc_step env d s = .ok s1 ∧
      s1.descs = (s.hw_params, some d, s.trace.filter Ev.is_desc ++ [.sw_malloc d])) := by
  unfold sw_params_malloc_step
  split_ifs
  · left; exact ⟨s, rfl, rfl⟩
  · right; exact ⟨_, rfl, by simp [St.descs, St.log, List.filter_append, Ev.is_desc]⟩

/-- The release at the end of a block and at `open_failed`: each variable that
holds a descriptor is freed. -/
theorem free_descs (s : St) :
    s.free_hw.free_sw.trace.filter Ev.is_desc =
      s.trace.filter Ev.is_desc ++ (s.hw_params.map Ev.hw_free).toList ++
        (s.sw_params.map Ev.sw_free).toList := by
  simp only [St.free_hw, St.free_sw]
  cases h1 : s.hw_params <;> cases h2 : s.sw_params <;>
    simp [St.log, List.filter_append, Ev.is_desc, h1, h2]

theorem release_descs (s : St) (d : Dir) (t : List Ev) (h : s.descs = (some d, some d, t)) :
    ∃ s1, run [release] s = .ok s1 ∧ s1.descs = (none, none, t ++ [.hw_free d, .sw_free d]) := by
  simp only [St.descs, Prod.mk.injEq] at h
  obtain ⟨h1, h2, h3⟩ := h
  refine ⟨_, rfl, ?_⟩
  simp only [St.descs, free_descs, h1, h2, h3]
  simp

/-- The descriptors after a block of the shape
`a ++ [hw malloc] ++ b ++ [sw malloc] ++ c ++ [release]`, whose other statements
leave the descriptors alone, entered with both variables NULL. -/
theorem shape_descs (env : Alsa) (d : Dir) (a b c : List (St → Except St St))
    (ha : ∀ f ∈ a, Pres St.descs f) (hb : ∀ f ∈ b, Pres St.descs f)
    (hc : ∀ f ∈ c, Pres St.descs f) (s : St) (t : List Ev)
    (h0 : s.descs = (none, none, t)) :
    (∃ s1, run (a ++ (hw_params_malloc_step env d ::
        (b ++ (sw_params_malloc_step env d :: (c ++ [release]))))) s = .ok s1 ∧
      s1.descs = (none, none, t ++ desc_actions d true true)) ∨
    (∃ s1 hw sw, run (a ++ (hw_params_malloc_step env d ::
        (b ++ (sw_params_malloc_step env d :: (c ++ [release]))))) s = .error s1 ∧
      (sw = true → hw = true) ∧
      s1.descs = (if hw then some d else none, if sw then some d else none,
        t ++ ((if hw then [Ev.hw_malloc d] else []) ++ (if sw then [Ev.sw_malloc d] else [])))) := by
  rcases run_append_pres St.descs a _ ha s with ⟨s1, e1, p1⟩ | ⟨s1, e1, p1⟩
  · right
    exact ⟨s1, false, false, e1, by simp, by rw [p1, h0]; simp⟩
  · rw [e1, run_cons]
    rw [h0] at p1
    rcases hw_params_malloc_descs env d s1 with ⟨s2, e2, p2⟩ | ⟨s2, e2, p2⟩
    · right
      rw [e2]
      exact ⟨s2, false, false, rfl, by simp, by rw [p2, p1]; simp⟩
    · rw [e2]
      simp only []
      have q1 := p1
      simp only [St.descs, Prod.mk.injEq] at q1
      rw [q1.2.1, q1.2.2] at p2
      rcases run_append_pres St.descs b _ hb s2 with ⟨s3, e3, p3⟩ | ⟨s3, e3, p3⟩
      · right
        exact ⟨s3, true, false, e3, by simp, by rw [p3, p2]; simp⟩
      · rw [e3, run_cons]
        rw [p2] at p3
        rcases sw_params_malloc_descs env d s3 with ⟨s4, e4, p4⟩ | ⟨s4, e4, p4⟩
        · right
          rw [e4]
          exact ⟨s4, true, false, rfl, by simp, by rw [p4, p3]; simp⟩
        · rw [e4]
          simp only []
          have q3 := p3
          simp only [St.descs, Prod.mk.injEq] at q3
          rw [q3.1, q3.2.2] at p4
          rcases run_append_pres St.descs c [release] hc s4 with ⟨s5, e5, p5⟩ | ⟨s5, e5, p5⟩
          · right
            exact ⟨s5, true, true, e5, by simp, by rw [p5, p4]; simp⟩
          · left
            rw [e5]
            rw [p4] at p5
            obtain ⟨s6, e6, p6⟩ := release_descs s5 d _ p5
            exact ⟨s6, e6, by rw [p6]; simp [desc_actions]⟩

/-- The descriptors after the capture block. -/
theorem capture_block_descs (env : Alsa) (pc : Int) (s : St) (t : List Ev)
    (h0 : s.descs = (none, none, t)) :
    (∃ s1, run (capture_block env pc) s = .ok s1 ∧
      s1.descs = (none, none, t ++ desc_actions .capture true true)) ∨
    (∃ s1 hw sw, run (capture_block env pc) s = .error s1 ∧ (sw = true → hw = true) ∧
      s1.descs = (if hw then some .capture else none, if sw then some .capture else none,
        t ++ ((if hw then [Ev.hw_malloc .capture] else []) ++
          (if sw then [Ev.sw_malloc .capture] else [])))) := by
  have e : capture_block env pc = (capture_block env pc).take 1 ++
      (hw_params_malloc_step env .capture :: (((capture_block env pc).drop 2).take 10 ++
        (sw_params_malloc_step env .capture ::
          ((((capture_block env pc).drop 13).take 3) ++ [release])))) := rfl
  rw [e]
  exact shape_descs env .capture _ _ _ (by simp [capture_block]) (by simp [capture_block])
    (by simp [capture_block]) s t h0

/-- The descriptors after the playback block. -/
theorem playback_block_descs (env : Alsa) (pc : Int) (s : St) (t : List Ev)
    (h0 : s.descs = (none, none, t)) :
    (∃ s1, run (playback_block env pc) s = .ok s1 ∧
      s1.descs = (none, none, t ++ desc_actions .playback true true)) ∨
    (∃ s1 hw sw, run (playback_block env pc) s = .error s1 ∧ (sw = true → hw = true) ∧
      s1.descs = (if hw then some .playback else none, if sw then some .playback else none,
        t ++ ((if hw then [Ev.hw_malloc .playback] else []) ++
          (if sw then [Ev.sw_malloc .playback] else [])))) := by
  have e : playback_block env pc = (playback_block env pc).take 1 ++
      (hw_params_malloc_step env .playback :: (((playback_block env pc).drop 2).take 10 ++
        (sw_params_malloc_step env .playback ::
          ((((playback_block env pc).drop 13).take 4) ++ [release])))) := rfl
  rw [e]
  exact shape_descs env .playback _ _ _ (by simp [playback_block]) (by simp [playback_block])
    (by simp [playback_block]) s t h0

theorem close_descs (s : St) (want : Bool) (d : Dir) :
    (s.close want d).trace.filter Ev.is_desc = s.trace.filter Ev.is_desc := by
  unfold St.close
  cases want
  · rfl
  · cases d <;> simp only [St.handle, if_true]
    · cases s.capture_handle <;>
        simp [St.log, St.set_handle, List.filter_append, Ev.is_desc]
    · cases s.playback_handle <;>
        simp [St.log, St.set_handle, List.filter_append, Ev.is_desc]

/-- The label `open_failed:` releases exactly the descriptors the two variables hold. -/
theorem open_failed_descs (wc wp : Bool) (s : St) (hw sw : Option Dir) (t : List Ev)
    (h : s.descs = (hw, sw, t)) :
    (open_failed wc wp s).trace.filter Ev.is_desc =
      t ++ (hw.map Ev.hw_free).toList ++ (sw.map Ev.sw_free).toList := by
  simp only [St.descs, Prod.mk.injEq] at h
  obtain ⟨h1, h2, h3⟩ := h
  simp only [open_failed]
  rw [close_descs, close_descs, free_descs, h1, h2, h3]

theorem link_and_return_descs (env : Alsa) (wc wp : Bool) (s : St) :
    (link_and_return env wc wp s).trace.filter Ev.is_desc = s.trace.filter Ev.is_desc := by
  simp only [link_and_return]
  split_ifs <;> simp [St.log, List.filter_append, Ev.is_desc]

/-- The descriptor actions of a whole call: for each direction, what was
allocated is released, in this order, and nothing else happens to descriptors. -/
theorem alsa_device_open_descs (env : Alsa) (config : alsa_config) (wc wp : Bool) :
    ∃ hc sc hp sp : Bool, (sc = true → hc = true) ∧ (sp = true → hp = true) ∧
      (hc = true → wc = true) ∧ (hp = true → wp = true) ∧
      (alsa_device_open env config wc wp).trace.filter Ev.is_desc =
        desc_actions .capture hc sc ++ desc_actions .playback hp sp := by
  simp only [alsa_device_open]
  have hd0 : (init_state config).descs = (none, none, []) := rfl
  generalize init_state config = s0 at hd0
  -- the capture part
  have hcap : (∃ s1, (if wc = true then run (capture_block env (to_int config.buffer_period_count)) s0
        else .ok s0) = .ok s1 ∧ ∃ hc : Bool, (hc = true → wc = true) ∧
        s1.descs = (none, none, desc_actions .capture hc hc)) ∨
      (∃ s1 hw sw, (if wc = true then run (capture_block env (to_int config.buffer_period_count)) s0
        else .ok s0) = .error s1 ∧ (sw = true → hw = true) ∧ (hw = true → wc = true) ∧
        s1.descs = (if hw then some .capture else none, if sw then some .capture else none,
          ((if hw then [Ev.hw_malloc .capture] else []) ++
            (if sw then [Ev.sw_malloc .capture] else [])))) := by
    cases wc with
    | false => left; exact ⟨s0, by simp, false, by simp, by rw [hd0]; rfl⟩
    | true =>
      rcases capture_block_descs env (to_int config.buffer_period_count) s0 [] hd0 with
        ⟨s1, e1, p1⟩ | ⟨s1, hw, sw, e1, i1, p1⟩
      · left; exact ⟨s1, by simp [e1], true, by simp, by simpa using p1⟩
      · right; exact ⟨s1, hw, sw, by simp [e1], i1, by simp, by simpa using p1⟩
  rcases hcap with ⟨s1, e1, hc, ic, p1⟩ | ⟨s1, hw, sw, e1, i1, i2, p1⟩
  · rw [e1]
    simp only []
    have hpb : (∃ s2, (if wp = true then run (playback_block env (to_int config.buffer_period_count)) s1
          else .ok s1) = .ok s2 ∧ ∃ hp : Bool, (hp = true → wp = true) ∧
          s2.trace.filter Ev.is_desc = desc_actions .capture hc hc ++ desc_actions .playback hp hp) ∨
        (∃ s2 hw sw, (if wp = true then run (playback_block env (to_int config.buffer_period_count)) s1
          else .ok s1) = .error s2 ∧ (sw = true → hw = true) ∧ (hw = true → wp = true) ∧
          s2.descs = (if hw then some .playback else none, if sw then some .playback else none,
            desc_actions .capture hc hc ++ ((if hw then [Ev.hw_malloc .playback] else []) ++
              (if sw then [Ev.sw_malloc .playback] else [])))) := by
      cases wp with
      | false =>
        left
        refine ⟨s1, by simp, false, by simp, ?_⟩
        simp only [St.descs, Prod.mk.injEq] at p1
        rw [p1.2.2]; simp [desc_actions]
      | true =>
        rcases playback_block_descs env (to_int config.buffer_period_count) s1 _ p1 with
          ⟨s2, e2, p2⟩ | ⟨s2, hw, sw, e2, j1, p2⟩
        · left
          refine ⟨s2, by simp [e2], true, by simp, ?_⟩
          simp only [St.descs, Prod.mk.injEq] at p2
          exact p2.2.2
        · right; exact ⟨s2, hw, sw, by simp [e2], j1, by simp, p2⟩
    rcases hpb with ⟨s2, e2, hp, ip, p2⟩ | ⟨s2, hw, sw, e2, j1, j2, p2⟩
    · rw [e2]
      simp only []
      rw [link_and_return_descs]
      exact ⟨hc, hc, hp, hp, id, id, ic, ip, p2⟩
    · rw [e2]
      simp only []
      rw [open_failed_descs wc wp s2 _ _ _ p2]
      refine ⟨hc, hc, hw, sw, id, j1, ic, j2, ?_⟩
      cases hw <;> cases sw <;> simp [desc_actions]
  · rw [e1]
    simp only []
    rw [open_failed_descs wc wp s1 _ _ _ p1]
    refine ⟨hw, sw, false, false, i1, by simp, i2, by simp, ?_⟩
    cases hw <;> cases sw <;> simp [desc_actions]

/-- Claim C12 (descriptors). For every environment, configuration and choice of
requested directions, whether the call succeeds or fails and wherever it fails:
for each direction the hardware descriptor is allocated at most once and freed
exactly as often as it was allocated, and so is the software descriptor; and
the descriptor actions of the call are, for capture and then for playback, the
allocations that took place (software only after hardware, and only for a
requested direction) followed by the release of exactly those descriptors. No
descriptor is leaked and none is freed twice, also when the capture block
succeeded and a playback call fails. -/
theorem descriptors_freed_exactly_once (env : Alsa) (config : alsa_config) (wc wp : Bool) :
    (∀ d,
      (alsa_device_open env config wc wp).trace.count (.hw_malloc d) ≤ 1 ∧
      (alsa_device_open env config wc wp).trace.count (.hw_free d) =
        (alsa_device_open env config wc wp).trace.count (.hw_malloc d) ∧
      (alsa_device_open env config wc wp).trace.count (.sw_malloc d) ≤ 1 ∧
      (alsa_device_open env config wc wp).trace.count (.sw_free d) =
        (alsa_device_open env config wc wp).trace.count (.sw_malloc d)) ∧
    (∃ hc sc hp sp : Bool, (sc = true → hc = true) ∧ (sp = true → hp = true) ∧
      (hc = true → wc = true) ∧ (hp = true → wp = true) ∧
      (alsa_device_open env config wc wp).trace.filter Ev.is_desc =
        desc_actions .capture hc sc ++ desc_actions .playback hp sp) := by
  obtain ⟨hc, sc, hp, sp, i1, i2, i3, i4, htr⟩ := alsa_device_open_descs env config wc wp
  have hcnt : ∀ e : Ev, e.is_desc = true →
      (alsa_device_open env config wc wp).trace.count e =
        ((alsa_device_open env config wc wp).trace.filter Ev.is_desc).count e :=
    fun e he => (List.count_filter he).symm
  refine ⟨?_, hc, sc, hp, sp, i1, i2, i3, i4, htr⟩
  intro d
  rw [hcnt (.hw_malloc d) rfl, hcnt (.hw_free d) rfl, hcnt (.sw_malloc d) rfl,
    hcnt (.sw_free d) rfl, htr]
  cases d <;> cases hc <;> cases sc <;> cases hp <;> cases sp <;> decide

/-! ### The bounds of the line buffer of `on_stdin` -/

/-- Any call of `on_stdin` on a well-formed line buffer leaves a well-formed line buffer. -/
theorem holds_line_step (buf p : List Nat) (c : Nat) (h : holds_line buf p) :
    ∃ p2, holds_line (on_stdin buf 1 c).pipecmd p2 := by
  by_cases hc : c = 10
  · subst hc
    cases hu : (on_stdin buf 1 10).unloop with
    | false => exact ⟨[], holds_line_reset buf p h hu⟩
    | true =>
      refine ⟨p, ?_⟩
      have h1 : ¬ ((1 : Int) < 0) := by decide
      have hq : strcmp buf [113, 0] = 0 := by
        rw [strcmp_q]
        exact (newline_unloop buf).1 hu
      simp only [on_stdin, h1, if_false, ne_eq, not_true_eq_false, hq, if_true]
      exact h
  · exact ⟨_, holds_line_push buf p c h hc⟩

/-- Every buffer reached from the zero-filled `pipecmd` is a well-formed line buffer. -/
theorem holds_line_reachable (cs : List Nat) :
    ∃ p, holds_line (feed (List.replicate PIPECMD_SIZE 0) cs) p := by
  have h0 : holds_line (List.replicate PIPECMD_SIZE 0) [] :=
    holds_line_of_empty _ (List.length_replicate _ _) rfl
  suffices hgen : ∀ (cs : List Nat) (buf p : List Nat), holds_line buf p →
      ∃ p2, holds_line (feed buf cs) p2 from hgen cs _ _ h0
  intro cs
  induction cs with
  | nil => intro buf p h; exact ⟨p, h⟩
  | cons c cs ih =>
    intro buf p h
    obtain ⟨p1, h1⟩ := holds_line_step buf p c h
    exact ih _ _ h1

theorem writes_in_bounds (buf p : List Nat) (r : Int) (c : Nat) (h : holds_line buf p) :
    ∀ i ∈ (on_stdin buf r c).writes, i < PIPECMD_SIZE := by
  have hs : strlen buf = p.length := by rw [strlen, cstr_of_holds_line buf p h]
  intro i hi
  simp only [on_stdin, hs] at hi
  split_ifs at hi with h1 h2 h3 h4 <;> simp at hi
  · simp only [PIPECMD_SIZE] at h3 ⊢
    rcases hi with rfl | rfl <;> omega
  · subst hi; simp [PIPECMD_SIZE]

/-- Claim C13 (the line buffer stays in bounds). After any finite sequence of
bytes has been delivered to `on_stdin`, starting from the zero-filled `pipecmd`:
the buffer still has 128 bytes, the command string in it has at most 126
characters and its terminating NUL lies inside the buffer; every index the next
call stores to, whatever `read` returns and whatever the byte, is below 128;
when the string has 126 characters a byte other than a newline is dropped, the
buffer is left unchanged and nothing is stored; and a newline then resets the
string to empty. -/
theorem pipecmd_never_overflows (cs : List Nat) (r : Int) (c : Nat) :
    (feed (List.replicate PIPECMD_SIZE 0) cs).length = PIPECMD_SIZE ∧
    strlen (feed (List.replicate PIPECMD_SIZE 0) cs) ≤ PIPECMD_SIZE - 2 ∧
    (feed (List.replicate PIPECMD_SIZE 0) cs)[strlen (feed (List.replicate PIPECMD_SIZE 0) cs)]?
      = some 0 ∧
    (∀ i ∈ (on_stdin (feed (List.replicate PIPECMD_SIZE 0) cs) r c).writes, i < PIPECMD_SIZE) ∧
    (strlen (feed (List.replicate PIPECMD_SIZE 0) cs) = PIPECMD_SIZE - 2 → c ≠ 10 →
      (on_stdin (feed (List.replicate PIPECMD_SIZE 0) cs) r c).pipecmd
        = feed (List.replicate PIPECMD_SIZE 0) cs ∧
      (on_stdin (feed (List.replicate PIPECMD_SIZE 0) cs) r c).writes = []) ∧
    (strlen (feed (List.replicate PIPECMD_SIZE 0) cs) = PIPECMD_SIZE - 2 →
      strlen (on_stdin (feed (List.replicate PIPECMD_SIZE 0) cs) 1 10).pipecmd = 0) := by
  obtain ⟨p, h⟩ := holds_line_reachable cs
  generalize feed (List.replicate PIPECMD_SIZE 0) cs = buf at h
  have hs : strlen buf = p.length := by rw [strlen, cstr_of_holds_line buf p h]
  refine ⟨h.1, by rw [hs]; exact h.2.1, ?_, writes_in_bounds buf p r c h, ?_, ?_⟩
  · obtain ⟨-, -, -, rest, rfl⟩ := h
    rw [hs, List.getElem?_append_right (Nat.le_refl _)]
    simp
  · intro hfull hc
    simp only [on_stdin, hfull, hc, ne_eq, not_false_eq_true, if_true, lt_self_iff_false,
      if_false]
    split_ifs <;> exact ⟨rfl, rfl⟩
  · intro hfull
    have hu : (on_stdin buf 1 10).unloop = false := by
      cases hu : (on_stdin buf 1 10).unloop with
      | false => rfl
      | true =>
        have := (newline_unloop buf).1 hu
        rw [strlen, this] at hfull
        simp [PIPECMD_SIZE] at hfull
    have hr := holds_line_reset buf p h hu
    rw [strlen, cstr_of_holds_line _ _ hr]
    rfl

end Atest
